import Mathlib

/-!
Verification of the content-pipeline repository's normalization, caching and
publishing layers against its natural-language specification.

The Python sources are shallowly embedded: JSON-like Python values become the
inductive `PyVal`, dictionary accesses that can raise `AttributeError` /
`TypeError` / `KeyError` return `Except PyErr`, and each agent's
payload-normalization logic is translated statement by statement.  Effects
that are irrelevant to the claims under scrutiny (file caches, HTTP
transport, logging) are not modelled; every function here starts from the
already-parsed provider payload, exactly as the corresponding Python block
does.
-/

set_option maxRecDepth 4096

/-- Opening brace character, written via its code point. -/
def lbrace : Char := Char.ofNat 123

/-- Closing brace character, written via its code point. -/
def rbrace : Char := Char.ofNat 125

/-- Python runtime exceptions that the embedded code can raise. -/
inductive PyErr where
  | attributeError
  | typeError
  | keyError
  | valueError
deriving DecidableEq, Repr

/-- A Python value as produced by `json.loads`: `None`, booleans, integers,
strings, lists and string-keyed dictionaries (JSON object keys are always
strings).  Floats never occur in the payload fields the claims touch.
Dictionaries are association lists in insertion order with unique keys;
lookup takes the first matching key. -/
inductive PyVal where
  | none
  | bool (b : Bool)
  | int (n : Int)
  | str (s : String)
  | list (xs : List PyVal)
  | dict (entries : List (String × PyVal))

mutual

/-- Structural Boolean equality on Python values, used for the `==` / `!=`
comparisons of the embedded code.  (All comparisons in the sources compare
against string literals, where Python's `==` is exactly structural.) -/
def PyVal.beq : PyVal → PyVal → Bool
  | .none, .none => true
  | .bool a, .bool b => a == b
  | .int a, .int b => a == b
  | .str a, .str b => a == b
  | .list xs, .list ys => PyVal.beqItems xs ys
  | .dict xs, .dict ys => PyVal.beqFields xs ys
  | _, _ => false

/-- Elementwise `PyVal.beq` on lists. -/
def PyVal.beqItems : List PyVal → List PyVal → Bool
  | [], [] => true
  | x :: xs, y :: ys => PyVal.beq x y && PyVal.beqItems xs ys
  | _, _ => false

/-- Elementwise `PyVal.beq` on dictionary fields. -/
def PyVal.beqFields : List (String × PyVal) → List (String × PyVal) → Bool
  | [], [] => true
  | (k1, v1) :: xs, (k2, v2) :: ys =>
    k1 == k2 && PyVal.beq v1 v2 && PyVal.beqFields xs ys
  | _, _ => false

end

/-- Python truthiness: `None`, `False`, `0`, `""`, `[]` and `\x7b\x7d` are
falsy, everything else is truthy. -/
def truthy : PyVal → Bool
  | .none => false
  | .bool b => b
  | .int n => n != 0
  | .str s => !s.isEmpty
  | .list xs => !xs.isEmpty
  | .dict d => !d.isEmpty

/-- `v.get(k, dflt)`: dictionary lookup with a default.  Raises
`AttributeError` when `v` is not a dictionary, exactly as `.get` does on any
non-dict Python value. -/
def getAttrGet (v : PyVal) (k : String) (dflt : PyVal) : Except PyErr PyVal :=
  match v with
  | .dict d => .ok ((d.lookup k).getD dflt)
  | _ => .error .attributeError

/-- `v.get(k)`: dictionary lookup defaulting to `None`. -/
def dgetN (v : PyVal) (k : String) : Except PyErr PyVal :=
  getAttrGet v k .none

/-- `v[k]`: dictionary subscription.  Raises `KeyError` on a missing key and
`TypeError` when `v` is not subscriptable by a string key. -/
def pyIndex (v : PyVal) (k : String) : Except PyErr PyVal :=
  match v with
  | .dict d =>
    match d.lookup k with
    | some x => .ok x
    | Option.none => .error .keyError
  | _ => .error .typeError

/-- `v.get(k, dflt)` where the key is itself a Python value (used for
`users.get(user_id_str, ...)`).  Our dictionaries are string-keyed, as are
all dictionaries decoded from JSON, so any non-string key misses and yields
the default. -/
def dgetKey (v : PyVal) (k : PyVal) (dflt : PyVal) : Except PyErr PyVal :=
  match v with
  | .dict d =>
    match k with
    | .str s => .ok ((d.lookup s).getD dflt)
    | _ => .ok dflt
  | _ => .error .attributeError

/-- `v.items()`: the key/value pairs of a dictionary, in insertion order.
Raises `AttributeError` on non-dictionaries. -/
def pyItems (v : PyVal) : Except PyErr (List (String × PyVal)) :=
  match v with
  | .dict d => .ok d
  | _ => .error .attributeError

/-- Iterating a Python value (`for x in v` / `list.extend(v)`): lists yield
their elements, strings their characters, dictionaries their keys; other
values raise `TypeError`. -/
def pyIter (v : PyVal) : Except PyErr (List PyVal) :=
  match v with
  | .list xs => .ok xs
  | .str s => .ok (s.toList.map (fun c => PyVal.str (String.singleton c)))
  | .dict d => .ok (d.map (fun p => PyVal.str p.1))
  | _ => .error .typeError

mutual

/-- Python `repr` of a value, used by `str` for elements nested inside
containers.  String quoting and escape refinements of CPython's `repr` are
rendered in the simple single-quote form; no claim below ever renders a
container or re-renders a string, so only the scaffolding shape matters. -/
def pyRepr : PyVal → String
  | .none => "None"
  | .bool true => "True"
  | .bool false => "False"
  | .int n => toString n
  | .str s => "'" ++ s ++ "'"
  | .list xs => "[" ++ pyReprItems xs ++ "]"
  | .dict d => String.singleton lbrace ++ pyReprFields d ++ String.singleton rbrace

/-- Comma-separated `repr`s of list elements. -/
def pyReprItems : List PyVal → String
  | [] => ""
  | [x] => pyRepr x
  | x :: xs => pyRepr x ++ ", " ++ pyReprItems xs

/-- Comma-separated `repr`s of dictionary fields. -/
def pyReprFields : List (String × PyVal) → String
  | [] => ""
  | [(k, v)] => "'" ++ k ++ "': " ++ pyRepr v
  | (k, v) :: fs => "'" ++ k ++ "': " ++ pyRepr v ++ ", " ++ pyReprFields fs

end

/-- Python `str(v)` as used by f-string interpolation: strings are inserted
verbatim, other values via their canonical rendering. -/
def pyStr : PyVal → String
  | .str s => s
  | v => pyRepr v

/-! ## TwitterAgent.search_tweets (src/agents/twitter_agent.py)

The normalization stage of `search_tweets`, starting from the decoded JSON
payload `response_json`.  The surrounding `try` block catches every
exception and returns `[]`, which `searchTweets` reproduces. -/

/-- One normalized tweet record, mirroring the dictionary the Python code
appends to `tweet_results_data`.  `url` is always a freshly built f-string,
hence a Lean `String`; the remaining fields hold whatever Python value the
payload supplied. -/
structure TweetRec where
  url : String
  snippet : PyVal
  screen_name : PyVal
  followers_count : PyVal
  created_at : PyVal
  favorite_count : PyVal
  quote_count : PyVal
  reply_count : PyVal
  retweet_count : PyVal

/-- The instruction walk that fills `raw_entries_or_items`: guarded by
`response_json and response_json.get('result','\x7b\x7d').get('timeline',
\x7b\x7d).get('instructions')` — note the source's default for `'result'` is
the two-character *string* `"\x7b\x7d"`, not an empty dict, so the chained
`.get('timeline', ...)` raises `AttributeError` whenever the `result` key is
absent.  `TimelineAddEntries` instructions contribute their `entries`;
`TimelineModule` instructions contribute each item that has an
`itemContent`. -/
def collectRawEntries (rj : PyVal) : Except PyErr (List PyVal) := do
  let cond ←
    if truthy rj then do
      let v1 ← getAttrGet rj "result" (.str "\x7b\x7d")
      let v2 ← getAttrGet v1 "timeline" (.dict [])
      let v3 ← getAttrGet v2 "instructions" .none
      pure (truthy v3)
    else pure false
  if cond then do
    let res ← pyIndex rj "result"
    let tl ← pyIndex res "timeline"
    let instrs ← pyIndex tl "instructions"
    let instrList ← pyIter instrs
    instrList.foldlM (fun acc ins => do
      let ty ← dgetN ins "type"
      if PyVal.beq ty (.str "TimelineAddEntries") then do
        let entries ← getAttrGet ins "entries" (.list [])
        let es ← pyIter entries
        pure (acc ++ es)
      else if PyVal.beq ty (.str "TimelineModule") then do
        let items ← getAttrGet ins "items" (.list [])
        let its ← pyIter items
        its.foldlM (fun acc2 container => do
          let item ← dgetN container "item"
          if truthy item then do
            let ic ← dgetN item "itemContent"
            if truthy ic then pure (acc2 ++ [item]) else pure acc2
          else pure acc2) acc
      else pure acc) []
  else pure []

/-- One iteration of the `globalObjects` fallback: a record for one entry
of `response_json['globalObjects']['tweets']`, resolving the author through
`globalObjects.users` keyed by `user_id_str`, and substituting
`'unknown_user'` / `0` / `'No text available'` defaults when fields are
missing.  The permalink embeds the tweets-map key as the post id. -/
def globalObjectsStep (rj : PyVal) (acc : List TweetRec) (p : String × PyVal) :
    Except PyErr (List TweetRec) := do
  let (tid, td) := p
  let uid ← dgetN td "user_id_str"
  let go2 ← getAttrGet rj "globalObjects" (.dict [])
  let users ← getAttrGet go2 "users" (.dict [])
  let userInfo ← dgetKey users uid (.dict [])
  let sn ← getAttrGet userInfo "screen_name" (.str "unknown_user")
  let fc ← getAttrGet userInfo "followers_count" (.int 0)
  let textDflt ← getAttrGet td "text" (.str "No text available")
  let text ← getAttrGet td "full_text" textDflt
  let url := "https://twitter.com/" ++ pyStr sn ++ "/status/" ++ tid
  let ca ← getAttrGet td "created_at" (.str "N/A")
  let fav ← getAttrGet td "favorite_count" (.int 0)
  let qc ← getAttrGet td "quote_count" (.int 0)
  let rc ← getAttrGet td "reply_count" (.int 0)
  let rt ← getAttrGet td "retweet_count" (.int 0)
  pure (acc ++ [⟨url, text, sn, fc, ca, fav, qc, rc, rt⟩])

/-- The `globalObjects` fallback loop over `tweets.items()`. -/
def globalObjectsRecords (rj : PyVal) : Except PyErr (List TweetRec) := do
  let go ← pyIndex rj "globalObjects"
  let tws ← pyIndex go "tweets"
  let items ← pyItems tws
  items.foldlM (globalObjectsStep rj) []

/-- Resolution of `tweet_result` from one collected entry: first
`itemContent.tweet_results.result`, then the three `content`-rooted paths
(`content.itemContent`, `content`, `content.tweet`), returning `None` when
no path yields a truthy result. -/
def resolveTweetResult (e : PyVal) : Except PyErr PyVal := do
  let ic ← dgetN e "itemContent"
  let content ← dgetN e "content"
  if truthy ic then do
    let a ← getAttrGet ic "tweet_results" (.dict [])
    let r1 ← dgetN a "result"
    if truthy r1 then pure r1
    else resolveFromContent content
  else resolveFromContent content
where
  /-- The `elif content:` ladder of `search_tweets`. -/
  resolveFromContent (content : PyVal) : Except PyErr PyVal := do
    if truthy content then do
      let cIc ← getAttrGet content "itemContent" (.dict [])
      let c1 ← getAttrGet cIc "tweet_results" (.dict [])
      let r2 ← dgetN c1 "result"
      if truthy r2 then pure r2
      else do
        let a ← getAttrGet content "tweet_results" (.dict [])
        let r3 ← dgetN a "result"
        if truthy r3 then pure r3
        else do
          let t ← getAttrGet content "tweet" (.dict [])
          let b ← getAttrGet t "tweet_results" (.dict [])
          let r4 ← dgetN b "result"
          if truthy r4 then pure r4
          else pure .none
    else pure .none

/-- The `core_user_data` selection ladder of `search_tweets`: the first
condition's chain value `l4` (`core.user_results.result.legacy`), else the
same path when `result.__typename == 'User'`, else the
`user.result.legacy` path, else an empty dict. -/
def coreUserData (tr res l4 : PyVal) : Except PyErr PyVal := do
  if truthy l4 then pure l4
  else do
    let tn2 ← dgetN res "__typename"
    if PyVal.beq tn2 (.str "User") then getAttrGet res "legacy" (.dict [])
    else do
      let u ← getAttrGet tr "user" (.dict [])
      let ures ← getAttrGet u "result" (.dict [])
      let ul ← dgetN ures "legacy"
      if truthy ul then pure ul else pure (.dict [])

/-- Record construction from a resolved `tweet_result`: requires
`__typename == 'Tweet'`, resolves the author's `legacy` data through the
three user paths, and only emits a record when `tweet_id` is truthy and the
screen name differs from the `'unknown_user'` placeholder. -/
def buildRecord (tr : PyVal) : Except PyErr (Option TweetRec) := do
  if truthy tr then do
    let tn ← dgetN tr "__typename"
    if PyVal.beq tn (.str "Tweet") then do
      let legacy ← getAttrGet tr "legacy" (.dict [])
      let core ← getAttrGet tr "core" (.dict [])
      let ur ← getAttrGet core "user_results" (.dict [])
      let res ← getAttrGet ur "result" (.dict [])
      let l4 ← dgetN res "legacy"
      let cud ← coreUserData tr res l4
      let tid ← dgetN legacy "id_str"
      let fullText ← getAttrGet legacy "full_text" (.str "No text available")
      let sn ← getAttrGet cud "screen_name" (.str "unknown_user")
      if truthy tid && !(PyVal.beq sn (.str "unknown_user")) then do
        let url := "https://twitter.com/" ++ pyStr sn ++ "/status/" ++ pyStr tid
        let fc ← getAttrGet cud "followers_count" (.int 0)
        let ca ← getAttrGet legacy "created_at" (.str "N/A")
        let fav ← getAttrGet legacy "favorite_count" (.int 0)
        let qc ← getAttrGet legacy "quote_count" (.int 0)
        let rc ← getAttrGet legacy "reply_count" (.int 0)
        let rt ← getAttrGet legacy "retweet_count" (.int 0)
        pure (some ⟨url, fullText, sn, fc, ca, fav, qc, rc, rt⟩)
      else pure Option.none
    else pure Option.none
  else pure Option.none

/-- Processing of one collected entry: resolve `tweet_result`, then build a
record from it if possible. -/
def processEntry (e : PyVal) : Except PyErr (Option TweetRec) := do
  let tr ← resolveTweetResult e
  buildRecord tr

/-- One iteration of the entry-processing loop: append the record extracted
from one entry, if any. -/
def entriesStep (acc : List TweetRec) (e : PyVal) : Except PyErr (List TweetRec) := do
  match ← processEntry e with
  | some rec => pure (acc ++ [rec])
  | Option.none => pure acc

/-- The full normalization body of `search_tweets` on a decoded payload:
instruction walk, `globalObjects` fallback when the walk collected nothing
and `globalObjects.tweets` is truthy, then the per-entry processing loop. -/
def searchTweetsExtract (rj : PyVal) : Except PyErr (List TweetRec) := do
  let raw ← collectRawEntries rj
  let fromGlobal ←
    if raw.isEmpty then do
      let go ← getAttrGet rj "globalObjects" (.dict [])
      let tws ← dgetN go "tweets"
      if truthy tws then globalObjectsRecords rj else pure []
    else pure []
  let fromEntries ← raw.foldlM entriesStep ([] : List TweetRec)
  pure (fromGlobal ++ fromEntries)

/-- `search_tweets` as observed by its caller: the enclosing `try`/`except`
turns every raised exception into an empty result list. -/
def searchTweets (rj : PyVal) : List TweetRec :=
  match searchTweetsExtract rj with
  | .ok l => l
  | .error _ => []

/-! ## Concrete payloads for the TwitterAgent claims -/

/-- A legacy-shaped payload: `globalObjects` is populated but there is no
`result` key at all (no timeline-instruction tree). -/
def twNoResultPayload : PyVal :=
  .dict [("globalObjects", .dict
    [("tweets", .dict [("123", .dict
        [("user_id_str", .str "7"), ("full_text", .str "hi")])]),
     ("users", .dict [("7", .dict
        [("screen_name", .str "bob"), ("followers_count", .int 10)])])])]

/-- The same payload with an empty `result` object added, so the
instruction walk finds nothing without raising. -/
def twEmptyResultPayload : PyVal :=
  .dict [("result", .dict []),
    ("globalObjects", .dict
    [("tweets", .dict [("123", .dict
        [("user_id_str", .str "7"), ("full_text", .str "hi")])]),
     ("users", .dict [("7", .dict
        [("screen_name", .str "bob"), ("followers_count", .int 10)])])])]

/-- A payload whose `globalObjects.tweets` entry has no resolvable author:
the tweet carries no `user_id_str` and there is no `users` map. -/
def twPlaceholderPayload : PyVal :=
  .dict [("result", .dict []),
    ("globalObjects", .dict
      [("tweets", .dict [("123", .dict [("full_text", .str "hi")])])])]

/-- Predicate: a record's permalink is built from its own screen name and
some post id. -/
def PermalinkShaped (rec : TweetRec) : Prop :=
  ∃ id, rec.url = "https://twitter.com/" ++ pyStr rec.screen_name ++ "/status/" ++ id

/-- The record that `search_tweets` emits for `twPlaceholderPayload`. -/
def twPlaceholderRec : TweetRec :=
  ⟨"https://twitter.com/unknown_user/status/123", .str "hi",
    .str "unknown_user", .int 0, .str "N/A", .int 0, .int 0, .int 0, .int 0⟩

/-- A timeline-instruction entry that resolves to a complete tweet. -/
def twEntryW : PyVal :=
  .dict [("itemContent", .dict [("tweet_results", .dict [("result", .dict
    [("__typename", .str "Tweet"),
     ("legacy", .dict [("id_str", .str "99"), ("full_text", .str "T")]),
     ("core", .dict [("user_results", .dict [("result", .dict
        [("legacy", .dict [("screen_name", .str "alice"),
          ("followers_count", .int 5)])])])])])])])]

/-- The record extracted from `twEntryW`. -/
def twRecW : TweetRec :=
  ⟨"https://twitter.com/alice/status/99", .str "T", .str "alice", .int 5,
    .str "N/A", .int 0, .int 0, .int 0, .int 0⟩



/-! ## SearchAgent.search (src/agents/search_agent.py)

The normalization stage of `search`, starting from `full_response_dict`
(always a Python dict by construction).  The surrounding `try`/`except`
turns raised exceptions into `[]`; `searchNormalize` returning `.ok`
therefore also certifies that no exception is raised. -/

/-- Python whitespace characters recognized by `str.split()` / `str.strip()`
(space, tab, newline, carriage return, vertical tab, form feed). -/
def isPySpace (c : Char) : Bool :=
  c = ' ' || c = '\t' || c = '\n' || c = '\r' || c = '\x0b' || c = '\x0c'

/-- Python `str.strip()` on a character list. -/
def pyStripL (l : List Char) : List Char :=
  ((l.dropWhile isPySpace).reverse.dropWhile isPySpace).reverse

/-- Python `str.strip()`. -/
def pyStrip (s : String) : String :=
  (pyStripL s.toList).asString

/-- `v.strip()`: defined on strings only; any other value raises
`AttributeError`. -/
def pyStripVal (v : PyVal) : Except PyErr PyVal :=
  match v with
  | .str s => .ok (.str (pyStrip s))
  | _ => .error .attributeError

/-- One normalized research record: the dictionary
`\x7b"url": ..., "snippet": ...\x7d` appended to `search_results_data`. -/
structure SearchRec where
  url : PyVal
  snippet : PyVal

/-- One iteration of the `search_results` loop: `item.get("url")`,
`item.get("title", "No title provided")`, and append only when the URL is
truthy. -/
def searchStep (acc : List SearchRec) (item : PyVal) : Except PyErr (List SearchRec) := do
  let url ← dgetN item "url"
  let title ← getAttrGet item "title" (.str "No title provided")
  if truthy url then pure (acc ++ [⟨url, title⟩]) else pure acc

/-- The chat-completion shape guard of `search`: `choices` must be a
non-empty list whose head is a dict with a truthy `message` dict holding a
truthy `content`; returns that content when the whole chain holds.  (A
truthy non-dict `message` fails `isinstance` just as the match falls
through; an empty `message` dict is falsy and also yields no content.) -/
def chatContent (resp : List (String × PyVal)) : Option PyVal :=
  match (resp.lookup "choices").getD (.list []) with
  | .list (c0 :: _) =>
    match c0 with
    | .dict d0 =>
      match (d0.lookup "message").getD .none with
      | .dict dm =>
        let content := (dm.lookup "content").getD .none
        if truthy content then some content else Option.none
      | _ => Option.none
    | _ => Option.none
  | _ => Option.none

/-- Holds when the payload carries no `search_results` list — the key is
absent or its value is not a Python list (`isinstance(..., list)` fails). -/
def noSearchResultsArray (resp : List (String × PyVal)) : Bool :=
  match resp.lookup "search_results" with
  | some (.list _) => false
  | _ => true

/-- The normalization body of `SearchAgent.search`: harvest the structured
`search_results` list when present; if that produced nothing and the
chat-completion shape holds, emit one placeholder record with the stripped
chat content; if the chat-completion shape fails, return `[]` (discarding
any harvested records, per the source's `elif`). -/
def searchNormalize (resp : List (String × PyVal)) : Except PyErr (List SearchRec) := do
  let data ←
    match resp.lookup "search_results" with
    | some (.list items) => items.foldlM searchStep []
    | _ => pure []
  match chatContent resp with
  | some content =>
    if data.isEmpty then do
      let stripped ← pyStripVal content
      pure (data ++ [⟨.str "https://perplexity.ai/summarized_result", stripped⟩])
    else pure data
  | Option.none => pure []

/-- The per-entry record function the structured branch computes: `None`
for non-dicts (which would in fact raise) and for entries with a falsy
URL; otherwise the URL paired with the title (or its default). -/
def entryRec (item : PyVal) : Option SearchRec :=
  match item with
  | .dict d =>
    let url := (d.lookup "url").getD .none
    let title := (d.lookup "title").getD (.str "No title provided")
    if truthy url then some ⟨url, title⟩ else Option.none
  | _ => Option.none

/-- Whether a Python value is a dict. -/
def isDict : PyVal → Bool
  | .dict _ => true
  | _ => false

/-- C4 counterexample payload: a non-empty `search_results` array none of
whose entries has a URL, alongside valid chat content. -/
def searchNoUrlPayload : List (String × PyVal) :=
  [("search_results", .list [.dict [("title", .str "T")]]),
   ("choices", .list [.dict [("message", .dict [("content", .str "C")])]])]

/-- C4 witness payload: the spec's end-to-end scenario A plus the
chat-completion shape. -/
def searchScenarioAPayload : List (String × PyVal) :=
  [("search_results", .list [.dict [("url", .str "http://a"), ("title", .str "T1")]]),
   ("choices", .list [.dict [("message", .dict [("content", .str "C")])]])]

/-- C5 counterexample payload: chat content with surrounding whitespace and
no `search_results`. -/
def searchStripPayload : List (String × PyVal) :=
  [("choices", .list [.dict [("message", .dict [("content", .str " C\n")])]])]

/-- C5 witness payload: plain chat content, no `search_results`. -/
def searchChatPayload : List (String × PyVal) :=
  [("choices", .list [.dict [("message", .dict [("content", .str "hello")])]])]


/-! ## DatabaseHandler (src/database.py)

The relational cache modelled as in-memory state: one list per table, an
AUTOINCREMENT counter per table (SQLite ids start at 1 and only grow), and
a logical clock standing in for `CURRENT_TIMESTAMP` (bumped on every
insert, so stored timestamps are strictly increasing and `ORDER BY
created_at DESC LIMIT 1` is unambiguous).  Each `save_*` method is a loop
of `INSERT` statements followed by one commit; no statement in the module
is an `UPDATE` or `DELETE`. -/

/-- One row of the `sessions` table. -/
structure SessionRow where
  id : Nat
  session_name : String
  created_at : Nat
  topic : Option String
  app_name : Option String
  app_description : Option String

/-- One row of the `search_results` table. -/
structure SearchRow where
  id : Nat
  session_id : Nat
  url : PyVal
  snippet : PyVal
  created_at : Nat
  raw_response : Option String

/-- One row of the `twitter_results` table. -/
structure TwitterRow where
  id : Nat
  session_id : Nat
  url : PyVal
  snippet : PyVal
  screen_name : PyVal
  followers_count : PyVal
  created_at : Nat
  favorite_count : PyVal
  quote_count : PyVal
  reply_count : PyVal
  retweet_count : PyVal
  raw_response : Option String

/-- One row of the `editor_outputs` table. -/
structure EditorRow where
  id : Nat
  session_id : Nat
  topic : PyVal
  linkedin_post : PyVal
  created_at : Nat
  raw_response : Option String

/-- The database state. -/
structure DB where
  clock : Nat
  nextSessionId : Nat
  nextSearchId : Nat
  nextTwitterId : Nat
  nextEditorId : Nat
  sessions : List SessionRow
  searchResults : List SearchRow
  twitterResults : List TwitterRow
  editorOutputs : List EditorRow

/-- The freshly initialized database: empty tables, ids starting at 1. -/
def emptyDB : DB :=
  ⟨0, 1, 1, 1, 1, [], [], [], []⟩

/-- `create_session`: one `INSERT INTO sessions`, returning `lastrowid`. -/
def createSession (db : DB) (name : String)
    (topic appName appDesc : Option String) : DB × Nat :=
  ({ db with
      sessions := db.sessions ++
        [⟨db.nextSessionId, name, db.clock, topic, appName, appDesc⟩],
      nextSessionId := db.nextSessionId + 1,
      clock := db.clock + 1 },
   db.nextSessionId)

/-- `get_latest_session_id`: the id of the session row with the greatest
`created_at` (timestamps are distinct by construction). -/
def getLatestSessionId (db : DB) : Option Nat :=
  match db.sessions.foldl
      (fun best row =>
        match best with
        | Option.none => some row
        | some b => if row.created_at > b.created_at then some row else some b)
      Option.none with
  | some row => some row.id
  | Option.none => Option.none

/-- One `INSERT INTO search_results` out of `save_search_results`. -/
def insertSearchRow (db : DB) (sid : Nat) (result : List (String × PyVal))
    (raw : Option String) : DB :=
  { db with
      searchResults := db.searchResults ++
        [⟨db.nextSearchId, sid, (result.lookup "url").getD .none,
          (result.lookup "snippet").getD .none, db.clock, raw⟩],
      nextSearchId := db.nextSearchId + 1,
      clock := db.clock + 1 }

/-- `save_search_results`: insert one row per result dict, then commit. -/
def saveSearchResults (db : DB) (sid : Nat)
    (results : List (List (String × PyVal))) (raw : Option String) : DB :=
  results.foldl (fun d r => insertSearchRow d sid r raw) db

/-- One `INSERT INTO twitter_results` out of `save_twitter_results`. -/
def insertTwitterRow (db : DB) (sid : Nat) (result : List (String × PyVal))
    (raw : Option String) : DB :=
  { db with
      twitterResults := db.twitterResults ++
        [⟨db.nextTwitterId, sid, (result.lookup "url").getD .none,
          (result.lookup "snippet").getD .none,
          (result.lookup "screen_name").getD .none,
          (result.lookup "followers_count").getD (.int 0), db.clock,
          (result.lookup "favorite_count").getD (.int 0),
          (result.lookup "quote_count").getD (.int 0),
          (result.lookup "reply_count").getD (.int 0),
          (result.lookup "retweet_count").getD (.int 0), raw⟩],
      nextTwitterId := db.nextTwitterId + 1,
      clock := db.clock + 1 }

/-- `save_twitter_results`: insert one row per result dict, then commit. -/
def saveTwitterResults (db : DB) (sid : Nat)
    (results : List (List (String × PyVal))) (raw : Option String) : DB :=
  results.foldl (fun d r => insertTwitterRow d sid r raw) db

/-- One `INSERT INTO editor_outputs` out of `save_editor_outputs`. -/
def insertEditorRow (db : DB) (sid : Nat) (post : List (String × PyVal))
    (raw : Option String) : DB :=
  { db with
      editorOutputs := db.editorOutputs ++
        [⟨db.nextEditorId, sid, (post.lookup "topic").getD .none,
          (post.lookup "linkedin_post").getD .none, db.clock, raw⟩],
      nextEditorId := db.nextEditorId + 1,
      clock := db.clock + 1 }

/-- One `enumerate(posts)` iteration of `save_editor_outputs`:
`raw_responses[i] if raw_responses and i < len(raw_responses) else None`. -/
def saveEditorStep (sid : Nat) (rawResponses : Option (List String))
    (db : DB) (p : Nat × List (String × PyVal)) : DB :=
  insertEditorRow db sid p.2
    (match rawResponses with
     | some l => l.get? p.1
     | Option.none => Option.none)

/-- `save_editor_outputs`: insert one row per post dict (with its aligned
raw response, if any), then commit. -/
def saveEditorOutputs (db : DB) (sid : Nat)
    (posts : List (List (String × PyVal))) (rawResponses : Option (List String)) : DB :=
  posts.enum.foldl (saveEditorStep sid rawResponses) db

/-- `has_search_results`: `COUNT(*) ... WHERE session_id = ? > 0`, with the
`None` argument resolved through `get_latest_session_id`. -/
def hasSearchResults (db : DB) (session_id : Option Nat) : Bool :=
  match session_id with
  | Option.none =>
    match getLatestSessionId db with
    | Option.none => false
    | some sid =>
      decide (0 < (db.searchResults.filter (fun r => r.session_id == sid)).length)
  | some sid =>
    decide (0 < (db.searchResults.filter (fun r => r.session_id == sid)).length)

/-- `has_twitter_results`. -/
def hasTwitterResults (db : DB) (session_id : Option Nat) : Bool :=
  match session_id with
  | Option.none =>
    match getLatestSessionId db with
    | Option.none => false
    | some sid =>
      decide (0 < (db.twitterResults.filter (fun r => r.session_id == sid)).length)
  | some sid =>
    decide (0 < (db.twitterResults.filter (fun r => r.session_id == sid)).length)

/-- `has_editor_outputs`. -/
def hasEditorOutputs (db : DB) (session_id : Option Nat) : Bool :=
  match session_id with
  | Option.none =>
    match getLatestSessionId db with
    | Option.none => false
    | some sid =>
      decide (0 < (db.editorOutputs.filter (fun r => r.session_id == sid)).length)
  | some sid =>
    decide (0 < (db.editorOutputs.filter (fun r => r.session_id == sid)).length)


/-! ## EditorAgent.craft_posts (src/agents/editor_agent.py)

The per-topic generation loop of `craft_posts` (cache-miss path).  The
upstream generative call for topic `i` is abstracted as an oracle
`gen : Nat → GenOutcome`; everything after the call is translated
directly. -/

/-- Outcome of one `self.model.generate_content(prompt)` call: an exception
(with its message), a response with no parts, or response text. -/
inductive GenOutcome where
  | exn (msg : String)
  | emptyParts
  | text (s : String)

/-- `generated_post_text` after the `try`/`except`: the error sentinel
`"#Error: API Call Failed - \x7be\x7d"` on an exception, the empty-response
sentinel when the response has no parts, otherwise the response text. -/
def generatedPostText : GenOutcome → String
  | .exn e => "#Error: API Call Failed - " ++ e
  | .emptyParts => "#Error: Empty API Response"
  | .text s => s

/-- The follow-up `if not generated_post_text:` check that replaces an
empty text with the empty-content sentinel. -/
def postTextFor (g : GenOutcome) : String :=
  let t := generatedPostText g
  if t = "" then "#Error: Empty API Response Content" else t

/-- `craft_posts`: early return `[]` when there are no topics, else one
`\x7b"topic": ..., "linkedin_post": ...\x7d` entry per topic, in order, the
post body being the stripped generated text (the source strips in every
branch, including the `#Error` branch). -/
def craftPosts (topics : List String) (gen : Nat → GenOutcome) :
    List (String × String) :=
  if topics.isEmpty then []
  else topics.enum.map (fun p => (p.2, pyStrip (postTextFor (gen p.1))))

/-- Witness oracle: the call for topic index 1 raises, the others return
text. -/
def craftGenW : Nat → GenOutcome :=
  fun i => if i == 1 then GenOutcome.exn "boom" else GenOutcome.text "ok"


/-! ## TypefullyClient._make_request (src/agents/typefully_client.py)

The response-handling block of `_make_request`, starting from the
`requests` response object.  The HTTP adapter's retry strategy is the
external `urllib3.util.retry.Retry` configured in `__init__`; only its
configuration constants are modelled.  `int()` parsing accepts an
optionally signed decimal digit run with surrounding whitespace (CPython
additionally accepts digit-grouping underscores and non-ASCII digits,
which no HTTP header uses). -/

/-- The `status_forcelist` passed to the retry adapter in
`TypefullyClient.__init__`. -/
def retryStatusForcelist : List Nat := [429, 500, 502, 503, 504]

/-- The `total` retry budget passed to the retry adapter. -/
def retryTotal : Nat := 3

/-- Python `int(s)` on a string: strip whitespace, allow one sign, then a
non-empty run of decimal digits; anything else raises `ValueError`. -/
def pyIntOfString (s : String) : Option Int :=
  let t := pyStripL s.toList
  let signed : Int × List Char :=
    match t with
    | '-' :: rest => (-1, rest)
    | '+' :: rest => (1, rest)
    | _ => (1, t)
  let ds := signed.2
  if ds ≠ [] ∧ ds.all Char.isDigit then
    some (signed.1 * (ds.foldl (fun acc c => acc * 10 + (c.toNat - 48)) 0 : Nat))
  else Option.none

/-- ASCII lower-casing of one character (header names are ASCII). -/
def asciiLower (c : Char) : Char :=
  if 65 ≤ c.toNat ∧ c.toNat ≤ 90 then Char.ofNat (c.toNat + 32) else c

/-- Case-insensitive header lookup, as `requests`' `CaseInsensitiveDict`
performs for `response.headers.get`. -/
def headerLookup (headers : List (String × String)) (key : String) : Option String :=
  match headers.find?
      (fun p => p.1.toList.map asciiLower == key.toList.map asciiLower) with
  | some p => some p.2
  | Option.none => Option.none

/-- A `requests` response as `_make_request` inspects it: status code,
headers, and body — `Option.none` for empty content (`response.content`
falsy), `some Option.none` for non-empty content that is not valid JSON,
`some (some v)` for a JSON body `v`. -/
structure HttpResponse where
  status : Nat
  headers : List (String × String)
  body : Option (Option PyVal)

/-- What `_make_request` does with a received response.  Mirrors the
source order: the 429 branch first (`int(response.headers.get
("Retry-After", 60))` — an unparseable header makes `int` raise
`ValueError`, which no `except` clause in the function catches), then
`response.ok` (status < 400), then JSON parsing of the body. -/
inductive TfOutcome where
  | rateLimitErr (retryAfter : Int)
  | apiError (status : Nat)
  | invalidJsonErr
  | okJson (body : PyVal)
  | uncaughtValueError

/-- The response-handling block of `_make_request`. -/
def handleTfResponse (resp : HttpResponse) : TfOutcome :=
  if resp.status == 429 then
    match headerLookup resp.headers "Retry-After" with
    | Option.none => .rateLimitErr 60
    | some s =>
      match pyIntOfString s with
      | some n => .rateLimitErr n
      | Option.none => .uncaughtValueError
  else if !(decide (resp.status < 400)) then .apiError resp.status
  else
    match resp.body with
    | Option.none => .okJson (.dict [])
    | some Option.none => .invalidJsonErr
    | some (some v) => .okJson v


/-! ## TypefullyClient.split_long_content (src/agents/typefully_client.py)

Modelled on character lists; the `String` wrapper converts at the
boundary.  The inner `while len(current_tweet) > max_length` loop is given
`word.length` units of fuel — when `max_length >= 1` every iteration
shortens the word by at least one character, so the fuel is never
exhausted (for `max_length = 0` the Python loop would not terminate). -/

/-- The word-chunking `while` loop: repeatedly emit
`current_tweet[:max_length]` and continue with `current_tweet[max_length:]`
while the current word is too long; returns the emitted chunks and the
final remainder. -/
def wordChunks : Nat → Nat → List Char → List (List Char) × List Char
  | 0, _, w => ([], w)
  | fuel + 1, maxLen, w =>
    if w.length > maxLen then
      let p := wordChunks fuel maxLen (w.drop maxLen)
      (w.take maxLen :: p.1, p.2)
    else ([], w)

/-- Python `content.split()`: split on runs of whitespace, no empty
pieces.  The accumulator holds the current word reversed. -/
def pySplitWs : List Char → List Char → List (List Char)
  | [], [] => []
  | [], cur => [cur.reverse]
  | c :: cs, cur =>
    if isPySpace c then
      if cur.isEmpty then pySplitWs cs [] else cur.reverse :: pySplitWs cs []
    else pySplitWs cs (c :: cur)

/-- One iteration of the word loop of `split_long_content`: try to extend
`current_tweet` with a space and the word; on overflow flush the current
tweet, restart from the word, and chunk it if it alone exceeds the
limit. -/
def splitStep (maxLen : Nat) (st : List (List Char) × List Char)
    (word : List Char) : List (List Char) × List Char :=
  let test := st.2 ++ (if st.2.isEmpty then [] else [' ']) ++ word
  if test.length ≤ maxLen then (st.1, test)
  else
    let tweets1 := if st.2.isEmpty then st.1 else st.1 ++ [st.2]
    if word.length > maxLen then
      let p := wordChunks word.length maxLen word
      (tweets1 ++ p.1, p.2)
    else (tweets1, word)

/-- `split_long_content` on a character list. -/
def splitLongContentL (maxLen : Nat) (content : List Char) : List (List Char) :=
  if content.length ≤ maxLen then [content]
  else
    let words := pySplitWs content []
    let st := words.foldl (splitStep maxLen) ([], [])
    if st.2.isEmpty then st.1 else st.1 ++ [st.2]

/-- `split_long_content`. -/
def splitLongContent (content : String) (maxLen : Nat) : List String :=
  (splitLongContentL maxLen content.toList).map List.asString


/-! ## ReviewerAgent.review_and_distill (src/agents/reviewer_agent.py)

The JSON-recovery step: strip a fenced-code marker, find the first opening
brace, scan forward counting brace depth until it returns to zero, and
hand that substring to `json.loads`.  `extractJson` models the substring
recovery (returning `Option.none` where the source logs an error and
returns the empty-topics default); whenever it returns the input string
itself, `json.loads` of that substring trivially equals `json.loads` of
the input, i.e. the original object.

`Json`/`serialize` model the well-formed serialized objects the claim
quantifies over, following `json.dumps` defaults: `", "` and `": "`
separators, `ensure_ascii` escapes, and integer numerals (the payloads the
distiller handles carry strings and lists only). -/

/-- The brace-depth scan of `review_and_distill`, starting at the first
`\x7b`: `+1` on an opening brace, `-1` on a closing brace, stopping (with
the number of characters consumed) when a closing brace returns the depth
to zero; `Option.none` when the braces never balance. -/
def braceScan : List Char → Int → Option Nat
  | [], _ => Option.none
  | c :: cs, depth =>
    let d' := if c = lbrace then depth + 1 else if c = rbrace then depth - 1 else depth
    if c = rbrace ∧ d' = 0 then some 1
    else (braceScan cs d').map (· + 1)

/-- The extraction: `strip()`, drop a leading ```` ```json ```` or
```` ``` ```` marker and a trailing ```` ``` ```` marker, `strip()` again,
find the first `\x7b`, brace-scan to its match, and return that
substring. -/
def extractJson (s : String) : Option String :=
  let t0 := pyStripL s.toList
  let t1 :=
    if ("```json".toList).isPrefixOf t0 then t0.drop 7
    else if ("```".toList).isPrefixOf t0 then t0.drop 3
    else t0
  let t2 := if ("```".toList).isSuffixOf t1 then t1.take (t1.length - 3) else t1
  let t := pyStripL t2
  match t.findIdx? (· = lbrace) with
  | Option.none => Option.none
  | some start =>
    match braceScan (t.drop start) 0 with
    | Option.none => Option.none
    | some n => some (((t.drop start).take n).asString)

/-- A JSON value, with integer numerals. -/
inductive Json where
  | null
  | bool (b : Bool)
  | num (n : Int)
  | str (s : String)
  | arr (items : List Json)
  | obj (fields : List (String × Json))

/-- Lower-case hex digit. -/
def hexDigit (n : Nat) : Char :=
  Char.ofNat (if n < 10 then 48 + n else 87 + n)

/-- `\uXXXX` escape for a code point below 0x10000 (astral-plane
surrogate pairs are not modelled; no payload in scope carries them). -/
def uEscape (n : Nat) : List Char :=
  ['\\', 'u', hexDigit (n / 4096 % 16), hexDigit (n / 256 % 16),
   hexDigit (n / 16 % 16), hexDigit (n % 16)]

/-- `json.dumps` escaping of one character (default `ensure_ascii`). -/
def escChar (c : Char) : List Char :=
  if c = '"' then ['\\', '"']
  else if c = '\\' then ['\\', '\\']
  else if c = '\n' then ['\\', 'n']
  else if c = '\t' then ['\\', 't']
  else if c = '\r' then ['\\', 'r']
  else if c = Char.ofNat 8 then ['\\', 'b']
  else if c = Char.ofNat 12 then ['\\', 'f']
  else if c.toNat < 32 ∨ c.toNat ≥ 128 then uEscape c.toNat
  else [c]

/-- A serialized JSON string literal. -/
def jstr (s : String) : List Char :=
  '"' :: (s.toList.map escChar).flatten ++ ['"']

/-- Decimal digits of a natural number (fuel-recursive; `fuel = n`
suffices since `n / 10 < n` for `n >= 10`). -/
def natDigits : Nat → Nat → List Char
  | 0, _ => []
  | fuel + 1, n =>
    if n < 10 then [Char.ofNat (48 + n)]
    else natDigits fuel (n / 10) ++ [Char.ofNat (48 + n % 10)]

/-- Decimal rendering of an integer numeral. -/
def intToChars (n : Int) : List Char :=
  if n < 0 then '-' :: natDigits n.natAbs n.natAbs
  else natDigits n.natAbs n.natAbs

mutual

/-- `json.dumps` with default separators. -/
def serialize : Json → List Char
  | .null => "null".toList
  | .bool true => "true".toList
  | .bool false => "false".toList
  | .num n => intToChars n
  | .str s => jstr s
  | .arr items => '[' :: serializeItems items ++ [']']
  | .obj fields => lbrace :: serializeFields fields ++ [rbrace]

/-- Array elements joined by `", "`. -/
def serializeItems : List Json → List Char
  | [] => []
  | [x] => serialize x
  | x :: xs => serialize x ++ ',' :: ' ' :: serializeItems xs

/-- Object members `"key": value` joined by `", "`. -/
def serializeFields : List (String × Json) → List Char
  | [] => []
  | [(k, v)] => jstr k ++ ':' :: ' ' :: serialize v
  | (k, v) :: fs => jstr k ++ ':' :: ' ' :: serialize v ++ ',' :: ' ' :: serializeFields fs

end

/-- A character that is not a brace. -/
def noBraceChar (c : Char) : Bool :=
  !(c = lbrace || c = rbrace)

/-- No brace occurs in the string. -/
def strNoBrace (s : String) : Bool :=
  s.toList.all noBraceChar

mutual

/-- No brace character occurs inside any string literal (key or value) of
the JSON value. -/
def Json.noBraces : Json → Bool
  | .null => true
  | .bool _ => true
  | .num _ => true
  | .str s => strNoBrace s
  | .arr items => Json.noBracesItems items
  | .obj fields => Json.noBracesFields fields

/-- `Json.noBraces` over array elements. -/
def Json.noBracesItems : List Json → Bool
  | [] => true
  | x :: xs => Json.noBraces x && Json.noBracesItems xs

/-- `Json.noBraces` over object members. -/
def Json.noBracesFields : List (String × Json) → Bool
  | [] => true
  | (k, v) :: fs => strNoBrace k && Json.noBraces v && Json.noBracesFields fs

end

/-- Depth contribution of one character. -/
def braceDelta (c : Char) : Int :=
  if c = lbrace then 1 else if c = rbrace then -1 else 0

/-- Net depth contribution of a character list. -/
def deltaL (l : List Char) : Int :=
  (l.map braceDelta).sum

/-- A segment whose net depth contribution is zero and whose prefixes
never dip below the starting depth. -/
def NeutralSeg (l : List Char) : Prop :=
  deltaL l = 0 ∧ ∀ k : Nat, 0 ≤ deltaL (l.take k)

/-- C3 counterexample object: a serialized JSON object whose string value
is a lone closing brace. -/
def jC3 : Json := .obj [("a", .str (String.singleton rbrace))]

/-! ## Helper lemmas for `Except` reasoning -/

/-- Inversion for a successful `Except` bind. -/
theorem bindOk {ε α β : Type} {x : Except ε α} {f : α → Except ε β} {b : β}
    (h : (x >>= f) = .ok b) : ∃ a, x = .ok a ∧ f a = .ok b := by
  cases x with
  | error e => cases h
  | ok a => exact ⟨a, rfl, h⟩

/-! ## Structural lemmas about the TwitterAgent normalizer -/

/-- Every record built from a resolved `tweet_result` passed the final
guard: its screen name is not the `'unknown_user'` placeholder and its
permalink embeds a truthy post id. -/
theorem buildRecord_ok_some {tr : PyVal} {rec : TweetRec}
    (h : buildRecord tr = .ok (some rec)) :
    PyVal.beq rec.screen_name (.str "unknown_user") = false ∧
    ∃ tid, truthy tid = true ∧
      rec.url = "https://twitter.com/" ++ pyStr rec.screen_name ++ "/status/" ++ pyStr tid := by
  simp only [buildRecord] at h
  split at h
  · obtain ⟨tn, _, h⟩ := bindOk h
    split at h
    · obtain ⟨legacy, _, h⟩ := bindOk h
      obtain ⟨core, _, h⟩ := bindOk h
      obtain ⟨ur, _, h⟩ := bindOk h
      obtain ⟨res, _, h⟩ := bindOk h
      obtain ⟨l4, _, h⟩ := bindOk h
      obtain ⟨cud, _, h⟩ := bindOk h
      obtain ⟨tid, _, h⟩ := bindOk h
      obtain ⟨fullText, _, h⟩ := bindOk h
      obtain ⟨sn, _, h⟩ := bindOk h
      split at h
      · rename_i hguard
        obtain ⟨fc, _, h⟩ := bindOk h
        obtain ⟨ca, _, h⟩ := bindOk h
        obtain ⟨fav, _, h⟩ := bindOk h
        obtain ⟨qc, _, h⟩ := bindOk h
        obtain ⟨rc, _, h⟩ := bindOk h
        obtain ⟨rt, _, h⟩ := bindOk h
        simp only [pure, Except.pure, Except.ok.injEq, Option.some.injEq] at h
        subst h
        simp only [Bool.and_eq_true, Bool.not_eq_true'] at hguard
        exact ⟨hguard.2, tid, hguard.1, rfl⟩
      · simp [pure, Except.pure] at h
    · simp [pure, Except.pure] at h
  · simp [pure, Except.pure] at h

/-- Lift of `buildRecord_ok_some` through `processEntry`. -/
theorem processEntry_ok_some {e : PyVal} {rec : TweetRec}
    (h : processEntry e = .ok (some rec)) :
    PyVal.beq rec.screen_name (.str "unknown_user") = false ∧
    ∃ tid, truthy tid = true ∧
      rec.url = "https://twitter.com/" ++ pyStr rec.screen_name ++ "/status/" ++ pyStr tid := by
  simp only [processEntry] at h
  obtain ⟨tr, _, h⟩ := bindOk h
  exact buildRecord_ok_some h

/-- Each `globalObjects` iteration appends exactly one record whose
permalink is built from its screen name and the tweets-map key. -/
theorem globalObjectsStep_ok {rj : PyVal} {acc acc' : List TweetRec}
    {p : String × PyVal} (h : globalObjectsStep rj acc p = .ok acc') :
    ∃ rec, acc' = acc ++ [rec] ∧ PermalinkShaped rec := by
  simp only [globalObjectsStep] at h
  obtain ⟨uid, _, h⟩ := bindOk h
  obtain ⟨go2, _, h⟩ := bindOk h
  obtain ⟨users, _, h⟩ := bindOk h
  obtain ⟨userInfo, _, h⟩ := bindOk h
  obtain ⟨sn, _, h⟩ := bindOk h
  obtain ⟨fc, _, h⟩ := bindOk h
  obtain ⟨textDflt, _, h⟩ := bindOk h
  obtain ⟨text, _, h⟩ := bindOk h
  obtain ⟨ca, _, h⟩ := bindOk h
  obtain ⟨fav, _, h⟩ := bindOk h
  obtain ⟨qc, _, h⟩ := bindOk h
  obtain ⟨rc, _, h⟩ := bindOk h
  obtain ⟨rt, _, h⟩ := bindOk h
  simp only [pure, Except.pure, Except.ok.injEq] at h
  exact ⟨_, h.symm, p.1, rfl⟩

/-- Records accumulated by the `globalObjects` fold are either inherited
from the accumulator or permalink-shaped. -/
theorem globalFold_mem {rj : PyVal} :
    ∀ (items : List (String × PyVal)) (acc out : List TweetRec),
      items.foldlM (globalObjectsStep rj) acc = .ok out →
      ∀ rec ∈ out, rec ∈ acc ∨ PermalinkShaped rec := by
  intro items
  induction items with
  | nil =>
    intro acc out h rec hrec
    simp only [List.foldlM_nil, pure, Except.pure, Except.ok.injEq] at h
    subst h
    exact Or.inl hrec
  | cons p items ih =>
    intro acc out h rec hrec
    rw [List.foldlM_cons] at h
    obtain ⟨acc1, hstep, h⟩ := bindOk h
    obtain ⟨r, hr, hshape⟩ := globalObjectsStep_ok hstep
    rcases ih acc1 out h rec hrec with hin | hp
    · subst hr
      rcases List.mem_append.mp hin with hin | hin
      · exact Or.inl hin
      · simp only [List.mem_singleton] at hin
        subst hin
        exact Or.inr hshape
    · exact Or.inr hp

/-- Records accumulated by the entry-processing fold are either inherited
from the accumulator or pass the final guard of `buildRecord`. -/
theorem entriesFold_mem :
    ∀ (raw : List PyVal) (acc out : List TweetRec),
      raw.foldlM entriesStep acc = .ok out →
      ∀ rec ∈ out, rec ∈ acc ∨
        (PyVal.beq rec.screen_name (.str "unknown_user") = false ∧
          ∃ tid, truthy tid = true ∧
            rec.url = "https://twitter.com/" ++ pyStr rec.screen_name ++
              "/status/" ++ pyStr tid) := by
  intro raw
  induction raw with
  | nil =>
    intro acc out h rec hrec
    simp only [List.foldlM_nil, pure, Except.pure, Except.ok.injEq] at h
    subst h
    exact Or.inl hrec
  | cons e raw ih =>
    intro acc out h rec hrec
    rw [List.foldlM_cons] at h
    obtain ⟨acc1, hstep, h⟩ := bindOk h
    simp only [entriesStep] at hstep
    obtain ⟨o, hpe, hstep⟩ := bindOk hstep
    have hacc1 : acc1 = acc ∨ ∃ r, acc1 = acc ++ [r] ∧ processEntry e = .ok (some r) := by
      cases o with
      | none =>
        simp only [pure, Except.pure, Except.ok.injEq] at hstep
        exact Or.inl hstep.symm
      | some r =>
        simp only [pure, Except.pure, Except.ok.injEq] at hstep
        exact Or.inr ⟨r, hstep.symm, hpe⟩
    rcases ih acc1 out h rec hrec with hin | hp
    · rcases hacc1 with rfl | ⟨r, rfl, hper⟩
      · exact Or.inl hin
      · rcases List.mem_append.mp hin with hin | hin
        · exact Or.inl hin
        · simp only [List.mem_singleton] at hin
          subst hin
          exact Or.inr (processEntry_ok_some hper)
    · exact Or.inr hp

/-- Every record list produced by `globalObjectsRecords` is permalink-shaped. -/
theorem globalObjectsRecords_shaped {rj : PyVal} {recs : List TweetRec}
    (h : globalObjectsRecords rj = .ok recs) : ∀ rec ∈ recs, PermalinkShaped rec := by
  simp only [globalObjectsRecords] at h
  obtain ⟨go, _, h⟩ := bindOk h
  obtain ⟨tws, _, h⟩ := bindOk h
  obtain ⟨items, _, h⟩ := bindOk h
  intro rec hrec
  rcases globalFold_mem items [] recs h rec hrec with hin | hp
  · cases hin
  · exact hp

/-- Membership decomposition for `searchTweets`: every emitted record is
permalink-shaped. -/
theorem searchTweets_mem_shaped {rj : PyVal} {rec : TweetRec}
    (hrec : rec ∈ searchTweets rj) : PermalinkShaped rec := by
  have entriesShaped : ∀ (raw : List PyVal) (out : List TweetRec),
      raw.foldlM entriesStep [] = .ok out → ∀ r ∈ out, PermalinkShaped r := by
    intro raw out hf r hr
    rcases entriesFold_mem raw [] out hf r hr with hin | ⟨_, tid, _, hurl⟩
    · cases hin
    · exact ⟨pyStr tid, hurl⟩
  unfold searchTweets at hrec
  rcases hext : searchTweetsExtract rj with e | l
  · rw [hext] at hrec
    cases hrec
  · rw [hext] at hrec
    simp only [searchTweetsExtract] at hext
    obtain ⟨raw, _, hext⟩ := bindOk hext
    split at hext
    · obtain ⟨go, _, hext⟩ := bindOk hext
      obtain ⟨tws, _, hext⟩ := bindOk hext
      split at hext
      · obtain ⟨fromGlobal, hg, hext⟩ := bindOk hext
        obtain ⟨fromEntries, hf, hext⟩ := bindOk hext
        simp only [pure, Except.pure, Except.ok.injEq] at hext
        subst hext
        rcases List.mem_append.mp hrec with hin | hin
        · exact globalObjectsRecords_shaped hg rec hin
        · exact entriesShaped raw fromEntries hf rec hin
      · obtain ⟨fromGlobal, hg, hext⟩ := bindOk hext
        obtain ⟨fromEntries, hf, hext⟩ := bindOk hext
        simp only [pure, Except.pure, Except.ok.injEq] at hg
        subst hg
        simp only [pure, Except.pure, Except.ok.injEq] at hext
        subst hext
        rcases List.mem_append.mp hrec with hin | hin
        · cases hin
        · exact entriesShaped raw fromEntries hf rec hin
    · obtain ⟨fromGlobal, hg, hext⟩ := bindOk hext
      obtain ⟨fromEntries, hf, hext⟩ := bindOk hext
      simp only [pure, Except.pure, Except.ok.injEq] at hg
      subst hg
      simp only [pure, Except.pure, Except.ok.injEq] at hext
      subst hext
      rcases List.mem_append.mp hrec with hin | hin
      · cases hin
      · exact entriesShaped raw fromEntries hf rec hin

/-! ## Claims C1 and C2 -/

/-- Claim C1 (code-bug evidence).  The claim states that a payload lacking
the timeline-instruction tree entirely reaches the `globalObjects` fallback
and yields one record per tweet.  In the code, `.get('result','\x7b\x7d')`
defaults to a two-character *string*, so `twNoResultPayload` (which has
`globalObjects` but no `result` key) raises `AttributeError` inside the
guard; the broad `except` turns this into `[]` and the fallback never runs.
The third conjunct shows the identical payload with an inert empty `result`
object added is normalized by the fallback exactly as the claim expects —
isolating the string default as the slip. -/
theorem searchTweets_globalObjects_fallback_unreachable :
    searchTweetsExtract twNoResultPayload = .error .attributeError ∧
    searchTweets twNoResultPayload = [] ∧
    searchTweets twEmptyResultPayload =
      [⟨"https://twitter.com/bob/status/123", .str "hi", .str "bob", .int 10,
        .str "N/A", .int 0, .int 0, .int 0, .int 0⟩] :=
  ⟨rfl, rfl, rfl⟩

/-- Claim C2 counterexample.  The claim states candidates with no
resolvable author handle are dropped entirely and never emitted with
placeholder fields; but on `twPlaceholderPayload` the `globalObjects`
fallback emits a record whose handle is the literal placeholder
`'unknown_user'` and whose permalink contains that placeholder. -/
theorem searchTweets_emits_placeholder_handle :
    searchTweets twPlaceholderPayload = [twPlaceholderRec] ∧
    twPlaceholderRec.screen_name = .str "unknown_user" ∧
    twPlaceholderRec.url = "https://twitter.com/unknown_user/status/123" :=
  ⟨rfl, rfl, rfl⟩

/-- Claim C2 (amended): every record emitted by `search_tweets` has a
permalink of the form `https://twitter.com/<handle>/status/<id>` built from
its own screen name and a post id; records produced from
timeline-instruction candidates (`processEntry`) additionally have a
non-placeholder handle and a truthy post id — candidates failing either
check are dropped.  Only the `globalObjects` fallback can emit the
`'unknown_user'` placeholder handle. -/
theorem searchTweets_permalink_shape :
    (∀ rj rec, rec ∈ searchTweets rj → PermalinkShaped rec) ∧
    (∀ e rec, processEntry e = .ok (some rec) →
      PyVal.beq rec.screen_name (.str "unknown_user") = false ∧
      ∃ tid, truthy tid = true ∧
        rec.url = "https://twitter.com/" ++ pyStr rec.screen_name ++
          "/status/" ++ pyStr tid) :=
  ⟨fun _ _ hrec => searchTweets_mem_shaped hrec,
   fun _ _ h => processEntry_ok_some h⟩

/-- Witness for `searchTweets_permalink_shape` at concrete inputs. -/
theorem searchTweets_permalink_shape_witness :
    PermalinkShaped twPlaceholderRec ∧
    (PyVal.beq twRecW.screen_name (.str "unknown_user") = false ∧
      ∃ tid, truthy tid = true ∧
        twRecW.url = "https://twitter.com/" ++ pyStr twRecW.screen_name ++
          "/status/" ++ pyStr tid) := by
  constructor
  · exact searchTweets_permalink_shape.1 twPlaceholderPayload twPlaceholderRec
      (by rw [show searchTweets twPlaceholderPayload = [twPlaceholderRec] from rfl]
          exact List.mem_singleton.mpr rfl)
  · exact searchTweets_permalink_shape.2 twEntryW twRecW rfl

/-! ## Lemmas about the SearchAgent normalizer -/

/-- A value is a dict iff it is built by the `dict` constructor. -/
theorem isDict_iff {v : PyVal} : isDict v = true ↔ ∃ d, v = .dict d := by
  cases v <;> simp [isDict]

/-- On a dict entry, one structured-branch iteration appends exactly the
optional record `entryRec` computes. -/
theorem searchStep_dict (acc : List SearchRec) (d : List (String × PyVal)) :
    searchStep acc (.dict d) = .ok (acc ++ (entryRec (.dict d)).toList) := by
  simp only [searchStep, dgetN, getAttrGet, entryRec]
  by_cases hu : truthy ((d.lookup "url").getD .none) = true
  · simp [hu, bind, Except.bind, pure, Except.pure]
  · simp [hu, bind, Except.bind, pure, Except.pure]

/-- The structured-branch fold maps `entryRec` over dict entries. -/
theorem searchFold_filterMap :
    ∀ (items : List PyVal) (acc : List SearchRec),
      (∀ item ∈ items, isDict item = true) →
      items.foldlM searchStep acc = .ok (acc ++ items.filterMap entryRec) := by
  intro items
  induction items with
  | nil =>
    intro acc _
    simp [List.foldlM_nil, pure, Except.pure]
  | cons item items ih =>
    intro acc hd
    obtain ⟨d, rfl⟩ := isDict_iff.mp (hd item (List.mem_cons_self _ _))
    rw [List.foldlM_cons, searchStep_dict]
    have hstep : (Except.ok (acc ++ (entryRec (.dict d)).toList) >>=
        fun b => items.foldlM searchStep b) = items.foldlM searchStep
          (acc ++ (entryRec (.dict d)).toList) := rfl
    rw [hstep, ih _ (fun x hx => hd x (List.mem_cons_of_mem _ hx))]
    rcases he : entryRec (.dict d) with _ | r <;>
      simp [he, List.filterMap_cons]

/-! ## Claims C4 and C5 -/

/-- Claim C4 counterexample.  `searchNoUrlPayload` has a non-empty
`search_results` array, and none of its entries has a URL, so the claim
("exactly one record per array entry that has a URL") predicts an empty
output; instead the chat-content fallback fires and one placeholder record
is emitted. -/
theorem searchNormalize_fallback_despite_results :
    searchNoUrlPayload.lookup "search_results" =
      some (.list [.dict [("title", .str "T")]]) ∧
    [PyVal.dict [("title", .str "T")]].filterMap entryRec = [] ∧
    searchNormalize searchNoUrlPayload =
      .ok [⟨.str "https://perplexity.ai/summarized_result", .str "C"⟩] :=
  ⟨rfl, rfl, rfl⟩

/-- Claim C4 (amended): for a chat-completion-shaped payload whose
`search_results` is a list of dict entries at least one of which has a
truthy URL, the normalizer emits exactly one record per entry with a URL,
in array order, each with the entry's title (or its default) as snippet —
i.e. the `entryRec` filter-map of the array.  (When no entry has a URL the
chat-content fallback record is emitted instead.) -/
theorem searchNormalize_maps_url_entries :
    ∀ (resp : List (String × PyVal)) (items : List PyVal),
      resp.lookup "search_results" = some (.list items) →
      (∀ item ∈ items, isDict item = true) →
      (chatContent resp).isSome = true →
      (∃ item ∈ items, (entryRec item).isSome = true) →
      searchNormalize resp = .ok (items.filterMap entryRec) := by
  intro resp items hsr hdict hshape hurl
  obtain ⟨c, hc⟩ := Option.isSome_iff_exists.mp hshape
  have hne : items.filterMap entryRec ≠ [] := by
    rcases hurl with ⟨item, hmem, hsome⟩
    intro hnil
    rw [List.filterMap_eq_nil_iff] at hnil
    rw [hnil item hmem] at hsome
    cases hsome
  simp only [searchNormalize, hsr, searchFold_filterMap items [] hdict, hc,
    bind, Except.bind, List.nil_append]
  rw [if_neg (by simpa [List.isEmpty_iff] using hne)]
  rfl

/-- Witness for `searchNormalize_maps_url_entries` at the spec's scenario-A
payload. -/
theorem searchNormalize_maps_url_entries_witness :
    searchNormalize searchScenarioAPayload =
      .ok [⟨.str "http://a", .str "T1"⟩] := by
  have h := searchNormalize_maps_url_entries searchScenarioAPayload
    [.dict [("url", .str "http://a"), ("title", .str "T1")]] rfl
    (by intro item hm
        rw [List.mem_singleton] at hm
        subst hm
        rfl)
    rfl
    ⟨.dict [("url", .str "http://a"), ("title", .str "T1")],
      List.mem_singleton.mpr rfl, rfl⟩
  exact h

/-- Claim C5 counterexample.  For chat content carrying surrounding
whitespace, the emitted snippet is the *stripped* content, not the full
chat content: the claim's "snippet equals the full chat content" fails. -/
theorem searchNormalize_snippet_stripped :
    searchNormalize searchStripPayload =
      .ok [⟨.str "https://perplexity.ai/summarized_result", .str "C"⟩] ∧
    chatContent searchStripPayload = some (.str " C\n") ∧
    PyVal.str "C" ≠ PyVal.str " C\n" := by
  refine ⟨rfl, rfl, ?_⟩
  intro h
  injection h with h
  exact absurd h (by decide)

/-- Claim C5 (amended): for a payload with no `search_results` array whose
chat shape yields string content, the normalizer emits exactly one record
with the fixed placeholder URL and the whitespace-stripped chat content as
snippet; and for a payload with no `search_results` array and no chat
content the normalizer returns `[]` without raising. -/
theorem searchNormalize_chat_fallback :
    (∀ (resp : List (String × PyVal)) (s : String),
      noSearchResultsArray resp = true →
      chatContent resp = some (.str s) →
      searchNormalize resp =
        .ok [⟨.str "https://perplexity.ai/summarized_result",
          .str (pyStrip s)⟩]) ∧
    (∀ resp : List (String × PyVal),
      noSearchResultsArray resp = true →
      chatContent resp = Option.none →
      searchNormalize resp = .ok []) := by
  constructor
  · intro resp s hno hc
    rcases hl : resp.lookup "search_results" with _ | v
    · simp [searchNormalize, hl, hc, pyStripVal, bind, Except.bind, pure, Except.pure]
    · cases v with
      | none => simp [searchNormalize, hl, hc, pyStripVal, bind, Except.bind, pure, Except.pure]
      | bool b => simp [searchNormalize, hl, hc, pyStripVal, bind, Except.bind, pure, Except.pure]
      | int n => simp [searchNormalize, hl, hc, pyStripVal, bind, Except.bind, pure, Except.pure]
      | str s2 => simp [searchNormalize, hl, hc, pyStripVal, bind, Except.bind, pure, Except.pure]
      | list xs => simp [noSearchResultsArray, hl] at hno
      | dict d => simp [searchNormalize, hl, hc, pyStripVal, bind, Except.bind, pure, Except.pure]
  · intro resp hno hc
    rcases hl : resp.lookup "search_results" with _ | v
    · simp [searchNormalize, hl, hc, bind, Except.bind, pure, Except.pure]
    · cases v with
      | none => simp [searchNormalize, hl, hc, bind, Except.bind, pure, Except.pure]
      | bool b => simp [searchNormalize, hl, hc, bind, Except.bind, pure, Except.pure]
      | int n => simp [searchNormalize, hl, hc, bind, Except.bind, pure, Except.pure]
      | str s2 => simp [searchNormalize, hl, hc, bind, Except.bind, pure, Except.pure]
      | list xs => simp [noSearchResultsArray, hl] at hno
      | dict d => simp [searchNormalize, hl, hc, bind, Except.bind, pure, Except.pure]

/-- Witness for `searchNormalize_chat_fallback` at concrete payloads. -/
theorem searchNormalize_chat_fallback_witness :
    searchNormalize searchChatPayload =
      .ok [⟨.str "https://perplexity.ai/summarized_result", .str "hello"⟩] ∧
    searchNormalize ([] : List (String × PyVal)) = .ok [] := by
  constructor
  · exact searchNormalize_chat_fallback.1 searchChatPayload "hello" rfl rfl
  · exact searchNormalize_chat_fallback.2 [] rfl rfl

/-! ## Lemmas about the database model -/

/-- `save_search_results` only appends to `search_results` and leaves the
other tables untouched. -/
theorem saveSearchAppend (sid : Nat) (raw : Option String) :
    ∀ (results : List (List (String × PyVal))) (db : DB),
      ∃ n, (saveSearchResults db sid results raw).searchResults = db.searchResults ++ n ∧
        (saveSearchResults db sid results raw).twitterResults = db.twitterResults ∧
        (saveSearchResults db sid results raw).editorOutputs = db.editorOutputs ∧
        (saveSearchResults db sid results raw).sessions = db.sessions := by
  intro results
  induction results with
  | nil =>
    intro db
    exact ⟨[], by simp [saveSearchResults], rfl, rfl, rfl⟩
  | cons r rs ih =>
    intro db
    obtain ⟨n, h1, h2, h3, h4⟩ := ih (insertSearchRow db sid r raw)
    refine ⟨⟨db.nextSearchId, sid, (r.lookup "url").getD .none,
      (r.lookup "snippet").getD .none, db.clock, raw⟩ :: n, ?_, ?_, ?_, ?_⟩
    · show (saveSearchResults (insertSearchRow db sid r raw) sid rs raw).searchResults = _
      rw [h1]
      simp [insertSearchRow]
    · exact h2
    · exact h3
    · exact h4

/-- `save_twitter_results` only appends to `twitter_results`. -/
theorem saveTwitterAppend (sid : Nat) (raw : Option String) :
    ∀ (results : List (List (String × PyVal))) (db : DB),
      ∃ n, (saveTwitterResults db sid results raw).twitterResults = db.twitterResults ++ n ∧
        (saveTwitterResults db sid results raw).searchResults = db.searchResults ∧
        (saveTwitterResults db sid results raw).editorOutputs = db.editorOutputs ∧
        (saveTwitterResults db sid results raw).sessions = db.sessions := by
  intro results
  induction results with
  | nil =>
    intro db
    exact ⟨[], by simp [saveTwitterResults], rfl, rfl, rfl⟩
  | cons r rs ih =>
    intro db
    obtain ⟨n, h1, h2, h3, h4⟩ := ih (insertTwitterRow db sid r raw)
    refine ⟨⟨db.nextTwitterId, sid, (r.lookup "url").getD .none,
      (r.lookup "snippet").getD .none, (r.lookup "screen_name").getD .none,
      (r.lookup "followers_count").getD (.int 0), db.clock,
      (r.lookup "favorite_count").getD (.int 0),
      (r.lookup "quote_count").getD (.int 0),
      (r.lookup "reply_count").getD (.int 0),
      (r.lookup "retweet_count").getD (.int 0), raw⟩ :: n, ?_, ?_, ?_, ?_⟩
    · show (saveTwitterResults (insertTwitterRow db sid r raw) sid rs raw).twitterResults = _
      rw [h1]
      simp [insertTwitterRow]
    · exact h2
    · exact h3
    · exact h4

/-- The editor fold (over an already-enumerated list) only appends to
`editor_outputs`. -/
theorem saveEditorFoldAppend (sid : Nat) (rr : Option (List String)) :
    ∀ (l : List (Nat × List (String × PyVal))) (db : DB),
      ∃ n, (l.foldl (saveEditorStep sid rr) db).editorOutputs = db.editorOutputs ++ n ∧
        (l.foldl (saveEditorStep sid rr) db).searchResults = db.searchResults ∧
        (l.foldl (saveEditorStep sid rr) db).twitterResults = db.twitterResults ∧
        (l.foldl (saveEditorStep sid rr) db).sessions = db.sessions := by
  intro l
  induction l with
  | nil =>
    intro db
    exact ⟨[], by simp, rfl, rfl, rfl⟩
  | cons p ps ih =>
    intro db
    obtain ⟨n, h1, h2, h3, h4⟩ := ih (saveEditorStep sid rr db p)
    refine ⟨⟨db.nextEditorId, sid, (p.2.lookup "topic").getD .none,
      (p.2.lookup "linkedin_post").getD .none, db.clock,
      match rr with
      | some l0 => l0.get? p.1
      | Option.none => Option.none⟩ :: n, ?_, ?_, ?_, ?_⟩
    · show ((ps.foldl (saveEditorStep sid rr) (saveEditorStep sid rr db p))).editorOutputs = _
      rw [h1]
      simp only [saveEditorStep, insertEditorRow, List.append_assoc, List.singleton_append]
      cases rr <;> rfl
    · exact h2
    · exact h3
    · exact h4

/-- `has_search_results` with an explicit session id is exactly row
existence for that session. -/
theorem hasSearch_iff (db : DB) (sid : Nat) :
    hasSearchResults db (some sid) = true ↔
      ∃ r ∈ db.searchResults, r.session_id = sid := by
  simp [hasSearchResults, ← List.countP_eq_length_filter, List.countP_pos_iff]

/-- `has_twitter_results` with an explicit session id is exactly row
existence for that session. -/
theorem hasTwitter_iff (db : DB) (sid : Nat) :
    hasTwitterResults db (some sid) = true ↔
      ∃ r ∈ db.twitterResults, r.session_id = sid := by
  simp [hasTwitterResults, ← List.countP_eq_length_filter, List.countP_pos_iff]

/-- `has_editor_outputs` with an explicit session id is exactly row
existence for that session. -/
theorem hasEditor_iff (db : DB) (sid : Nat) :
    hasEditorOutputs db (some sid) = true ↔
      ∃ r ∈ db.editorOutputs, r.session_id = sid := by
  simp [hasEditorOutputs, ← List.countP_eq_length_filter, List.countP_pos_iff]

/-! ## Claims C6 and C7 -/

/-- Claim C6: the three row-record save operations are pure inserts —
each leaves every previously present row in place and unchanged (the old
table is a prefix of the new one) and never touches any other table, so
re-running a stage against the same session adds rows rather than
replacing them. -/
theorem save_operations_append_only :
    (∀ (db : DB) (sid : Nat) (results : List (List (String × PyVal)))
        (raw : Option String), ∃ newRows,
      (saveSearchResults db sid results raw).searchResults = db.searchResults ++ newRows ∧
      (saveSearchResults db sid results raw).twitterResults = db.twitterResults ∧
      (saveSearchResults db sid results raw).editorOutputs = db.editorOutputs ∧
      (saveSearchResults db sid results raw).sessions = db.sessions) ∧
    (∀ (db : DB) (sid : Nat) (results : List (List (String × PyVal)))
        (raw : Option String), ∃ newRows,
      (saveTwitterResults db sid results raw).twitterResults = db.twitterResults ++ newRows ∧
      (saveTwitterResults db sid results raw).searchResults = db.searchResults ∧
      (saveTwitterResults db sid results raw).editorOutputs = db.editorOutputs ∧
      (saveTwitterResults db sid results raw).sessions = db.sessions) ∧
    (∀ (db : DB) (sid : Nat) (posts : List (List (String × PyVal)))
        (rawResponses : Option (List String)), ∃ newRows,
      (saveEditorOutputs db sid posts rawResponses).editorOutputs = db.editorOutputs ++ newRows ∧
      (saveEditorOutputs db sid posts rawResponses).searchResults = db.searchResults ∧
      (saveEditorOutputs db sid posts rawResponses).twitterResults = db.twitterResults ∧
      (saveEditorOutputs db sid posts rawResponses).sessions = db.sessions) :=
  ⟨fun db sid results raw => saveSearchAppend sid raw results db,
   fun db sid results raw => saveTwitterAppend sid raw results db,
   fun db sid posts rawResponses => saveEditorFoldAppend sid rawResponses posts.enum db⟩

/-- Claim C7: each `has_X(session)` with an explicit session id is a pure
existence predicate — true iff at least one row of kind X carries that
session id, independent of row content; it is false for the id returned by
`create_session` on any database whose rows only reference
previously-allocated sessions, and true immediately after a save operation
inserts at least one row for that session, whatever the rows contain. -/
theorem has_results_existence_predicate :
    (∀ (db : DB) (sid : Nat), hasSearchResults db (some sid) = true ↔
      ∃ r ∈ db.searchResults, r.session_id = sid) ∧
    (∀ (db : DB) (sid : Nat), hasTwitterResults db (some sid) = true ↔
      ∃ r ∈ db.twitterResults, r.session_id = sid) ∧
    (∀ (db : DB) (sid : Nat), hasEditorOutputs db (some sid) = true ↔
      ∃ r ∈ db.editorOutputs, r.session_id = sid) ∧
    (∀ (db : DB) (name : String) (topic appName appDesc : Option String),
      (∀ r ∈ db.searchResults, r.session_id < db.nextSessionId) →
      (∀ r ∈ db.twitterResults, r.session_id < db.nextSessionId) →
      (∀ r ∈ db.editorOutputs, r.session_id < db.nextSessionId) →
      hasSearchResults (createSession db name topic appName appDesc).1
        (some (createSession db name topic appName appDesc).2) = false ∧
      hasTwitterResults (createSession db name topic appName appDesc).1
        (some (createSession db name topic appName appDesc).2) = false ∧
      hasEditorOutputs (createSession db name topic appName appDesc).1
        (some (createSession db name topic appName appDesc).2) = false) ∧
    (∀ (db : DB) (sid : Nat) (results : List (List (String × PyVal)))
        (raw : Option String), results ≠ [] →
      hasSearchResults (saveSearchResults db sid results raw) (some sid) = true ∧
      hasTwitterResults (saveTwitterResults db sid results raw) (some sid) = true) := by
  refine ⟨hasSearch_iff, hasTwitter_iff, hasEditor_iff, ?_, ?_⟩
  · intro db name topic appName appDesc wfS wfT wfE
    refine ⟨?_, ?_, ?_⟩
    · rw [Bool.eq_false_iff]
      intro h
      obtain ⟨r, hr, hid⟩ := (hasSearch_iff _ _).mp h
      have := wfS r hr
      simp [createSession] at hid
      omega
    · rw [Bool.eq_false_iff]
      intro h
      obtain ⟨r, hr, hid⟩ := (hasTwitter_iff _ _).mp h
      have := wfT r hr
      simp [createSession] at hid
      omega
    · rw [Bool.eq_false_iff]
      intro h
      obtain ⟨r, hr, hid⟩ := (hasEditor_iff _ _).mp h
      have := wfE r hr
      simp [createSession] at hid
      omega
  · intro db sid results raw hne
    rcases results with _ | ⟨x, xs⟩
    · exact absurd rfl hne
    constructor
    · obtain ⟨n, h1, _, _, _⟩ := saveSearchAppend sid raw xs (insertSearchRow db sid x raw)
      refine (hasSearch_iff _ _).mpr
        ⟨⟨db.nextSearchId, sid, (x.lookup "url").getD .none,
          (x.lookup "snippet").getD .none, db.clock, raw⟩, ?_, rfl⟩
      show _ ∈ (saveSearchResults (insertSearchRow db sid x raw) sid xs raw).searchResults
      rw [h1]
      simp [insertSearchRow]
    · obtain ⟨n, h1, _, _, _⟩ := saveTwitterAppend sid raw xs (insertTwitterRow db sid x raw)
      refine (hasTwitter_iff _ _).mpr
        ⟨⟨db.nextTwitterId, sid, (x.lookup "url").getD .none,
          (x.lookup "snippet").getD .none, (x.lookup "screen_name").getD .none,
          (x.lookup "followers_count").getD (.int 0), db.clock,
          (x.lookup "favorite_count").getD (.int 0),
          (x.lookup "quote_count").getD (.int 0),
          (x.lookup "reply_count").getD (.int 0),
          (x.lookup "retweet_count").getD (.int 0), raw⟩, ?_, rfl⟩
      show _ ∈ (saveTwitterResults (insertTwitterRow db sid x raw) sid xs raw).twitterResults
      rw [h1]
      simp [insertTwitterRow]

/-- Witness for `has_results_existence_predicate` at a concrete run:
an empty database, one freshly created session, one saved row. -/
theorem has_results_existence_predicate_witness :
    (hasSearchResults emptyDB (some 1) = true ↔
      ∃ r ∈ emptyDB.searchResults, r.session_id = 1) ∧
    hasSearchResults (createSession emptyDB "s" .none .none .none).1
      (some (createSession emptyDB "s" .none .none .none).2) = false ∧
    hasSearchResults
      (saveSearchResults (createSession emptyDB "s" .none .none .none).1 1
        [[("url", .str "u"), ("snippet", .str "sn")]] .none) (some 1) = true := by
  refine ⟨has_results_existence_predicate.1 emptyDB 1, ?_, ?_⟩
  · exact (has_results_existence_predicate.2.2.2.1 emptyDB "s" .none .none .none
      (by intro r hr; cases hr) (by intro r hr; cases hr)
      (by intro r hr; cases hr)).1
  · exact (has_results_existence_predicate.2.2.2.2
      (createSession emptyDB "s" .none .none .none).1 1
      [[("url", .str "u"), ("snippet", .str "sn")]] .none (by simp)).1

/-! ## Lemmas about the composer -/

/-- Dropping trailing whitespace from `a ++ b` either reduces to dropping
it from `a` (when `b` is all whitespace) or keeps `a` intact. -/
theorem dropTrailing_append (a b : List Char) :
    ((a ++ b).reverse.dropWhile isPySpace).reverse =
      if (b.reverse.dropWhile isPySpace).isEmpty
      then (a.reverse.dropWhile isPySpace).reverse
      else a ++ (b.reverse.dropWhile isPySpace).reverse := by
  rw [List.reverse_append, List.dropWhile_append]
  split
  · rfl
  · rw [List.reverse_append, List.reverse_reverse]

/-- The stripped error sentinel still begins with `#Error`. -/
theorem pyStripL_sentinel_prefix (e : List Char) :
    "#Error".toList.isPrefixOf
      (pyStripL ("#Error: API Call Failed - ".toList ++ e)) = true := by
  have ha : "#Error: API Call Failed - ".toList =
      '#' :: "Error: API Call Failed - ".toList := rfl
  rw [pyStripL, ha, List.cons_append, List.dropWhile_cons_of_neg (by decide),
    ← List.cons_append, ← ha, dropTrailing_append]
  split
  · decide
  · rw [List.isPrefixOf_iff_prefix]
    exact List.IsPrefix.trans (by decide) (List.prefix_append _ _)

/-- Claim C8: for every topic list and generation oracle, `craft_posts`
emits exactly one `(topic, post)` entry per topic, in order, and whenever
the upstream call for a topic raised an exception, the stored post body
for that topic begins with the literal `#Error` sentinel prefix (the
sentinel is stored, nothing is raised, and the loop continues through the
remaining topics). -/
theorem craftPosts_error_sentinel :
    ∀ (topics : List String) (gen : Nat → GenOutcome),
      (craftPosts topics gen).length = topics.length ∧
      ∀ (i : Nat) (e : String), i < topics.length → gen i = .exn e →
        ((craftPosts topics gen).getD i ("", "")).1 = topics.getD i "" ∧
        "#Error".toList.isPrefixOf
          (((craftPosts topics gen).getD i ("", "")).2).toList = true := by
  intro topics gen
  have hsentinel : ∀ e : String,
      (pyStrip (postTextFor (.exn e))).toList =
        pyStripL ("#Error: API Call Failed - ".toList ++ e.toList) := by
    intro e
    have hne : ("#Error: API Call Failed - " ++ e) ≠ "" := by
      intro h
      have := congrArg String.length h
      simp [String.length_append] at this
      exact absurd this.1 (by decide)
    simp only [postTextFor, generatedPostText, if_neg hne, pyStrip]
    show pyStripL ("#Error: API Call Failed - " ++ e).toList = _
    rw [show ("#Error: API Call Failed - " ++ e).toList =
      "#Error: API Call Failed - ".toList ++ e.toList from rfl]
  constructor
  · by_cases h : topics.isEmpty
    · rw [craftPosts, if_pos h, List.isEmpty_iff.mp h]
      rfl
    · rw [craftPosts, if_neg h, List.length_map, List.enum_length]
  · intro i e hi hgen
    have hne : topics.isEmpty = false := by
      cases topics
      · simp at hi
      · rfl
    have hlen : i < (craftPosts topics gen).length := by
      rw [craftPosts, if_neg (by rw [hne]; simp), List.length_map, List.enum_length]
      exact hi
    rw [List.getD_eq_getElem _ _ hlen]
    have hcp : craftPosts topics gen =
        topics.enum.map (fun p => (p.2, pyStrip (postTextFor (gen p.1)))) := by
      rw [craftPosts, if_neg (by rw [hne]; simp)]
    have : (craftPosts topics gen)[i] =
        (topics.get ⟨i, hi⟩, pyStrip (postTextFor (gen i))) := by
      have hi2 : i < (topics.enum.map
          (fun p => (p.2, pyStrip (postTextFor (gen p.1))))).length := by
        rw [List.length_map, List.enum_length]; exact hi
      simp only [hcp]
      rw [List.getElem_map]
      congr 1 <;> rw [List.getElem_enum]
      rfl
    rw [this]
    constructor
    · rw [List.getD_eq_getElem _ _ hi]
      rfl
    · rw [hgen, hsentinel e]
      exact pyStripL_sentinel_prefix e.toList

/-- Witness for `craftPosts_error_sentinel`: two topics, the second call
raises; two entries come out, the second carrying the `#Error` sentinel. -/
theorem craftPosts_error_sentinel_witness :
    (craftPosts ["t1", "t2"] craftGenW).length = 2 ∧
    ((craftPosts ["t1", "t2"] craftGenW).getD 1 ("", "")).1 = "t2" ∧
    "#Error".toList.isPrefixOf
      (((craftPosts ["t1", "t2"] craftGenW).getD 1 ("", "")).2).toList = true := by
  have h := craftPosts_error_sentinel ["t1", "t2"] craftGenW
  have h2 := h.2 1 "boom" (by decide) rfl
  exact ⟨h.1, h2.1, h2.2⟩

/-! ## Claim C9 -/

/-- Claim C9 counterexample.  A 429 response whose `Retry-After` header is
not an integer literal (RFC 7231 also permits an HTTP-date here) makes
`int(...)` raise `ValueError`, which no handler in `_make_request`
catches: the outcome is an uncaught `ValueError`, not the typed
`RateLimitError` the claim promises for every 429 response. -/
theorem makeRequest_nonint_retry_after :
    handleTfResponse ⟨429, [("Retry-After", "soon")], Option.none⟩ =
      .uncaughtValueError ∧
    handleTfResponse ⟨429, [("Retry-After", "soon")], Option.none⟩ ≠
      .rateLimitErr 60 := ⟨rfl, by intro h; cases h⟩

/-- Claim C9 (amended): a 429 response is surfaced as `RateLimitError`
carrying the `Retry-After` header value when that value is an integer
literal, and 60 when the header is absent; a present but non-integer
`Retry-After` instead escapes as an uncaught `ValueError`.  The only retry
behaviour is the HTTP-adapter strategy configured for the fixed status set
\x7b429, 500, 502, 503, 504\x7d with a total budget of 3. -/
theorem makeRequest_rate_limit_spec :
    (∀ resp : HttpResponse, resp.status = 429 →
      headerLookup resp.headers "Retry-After" = Option.none →
      handleTfResponse resp = .rateLimitErr 60) ∧
    (∀ (resp : HttpResponse) (s : String) (n : Int), resp.status = 429 →
      headerLookup resp.headers "Retry-After" = some s →
      pyIntOfString s = some n →
      handleTfResponse resp = .rateLimitErr n) ∧
    (∀ (resp : HttpResponse) (s : String), resp.status = 429 →
      headerLookup resp.headers "Retry-After" = some s →
      pyIntOfString s = Option.none →
      handleTfResponse resp = .uncaughtValueError) ∧
    retryStatusForcelist = [429, 500, 502, 503, 504] ∧
    retryTotal = 3 := by
  refine ⟨?_, ?_, ?_, rfl, rfl⟩
  · intro resp hs hh
    rw [handleTfResponse, if_pos (by rw [hs]; rfl), hh]
  · intro resp s n hs hh hn
    rw [handleTfResponse, if_pos (by rw [hs]; rfl), hh]
    show (match pyIntOfString s with
      | some n => TfOutcome.rateLimitErr n
      | Option.none => TfOutcome.uncaughtValueError) = _
    rw [hn]
  · intro resp s hs hh hn
    rw [handleTfResponse, if_pos (by rw [hs]; rfl), hh]
    show (match pyIntOfString s with
      | some n => TfOutcome.rateLimitErr n
      | Option.none => TfOutcome.uncaughtValueError) = _
    rw [hn]

/-- Witness for `makeRequest_rate_limit_spec` at concrete responses. -/
theorem makeRequest_rate_limit_spec_witness :
    handleTfResponse ⟨429, [], Option.none⟩ = .rateLimitErr 60 ∧
    handleTfResponse ⟨429, [("Retry-After", "120")], Option.none⟩ =
      .rateLimitErr 120 ∧
    handleTfResponse ⟨429, [("Retry-After", "soon")], Option.none⟩ =
      .uncaughtValueError :=
  ⟨makeRequest_rate_limit_spec.1 ⟨429, [], Option.none⟩ rfl rfl,
   makeRequest_rate_limit_spec.2.1 ⟨429, [("Retry-After", "120")], Option.none⟩
     "120" 120 rfl rfl rfl,
   makeRequest_rate_limit_spec.2.2.1 ⟨429, [("Retry-After", "soon")], Option.none⟩
     "soon" rfl rfl rfl⟩

/-! ## Lemmas about content splitting -/

/-- With `max_length >= 1` and enough fuel, every chunk the word loop
emits has length at most `max_length`, and so does the remainder. -/
theorem wordChunks_spec (maxLen : Nat) (hm : 1 ≤ maxLen) :
    ∀ (fuel : Nat) (w : List Char), w.length ≤ fuel + maxLen →
      (∀ c ∈ (wordChunks fuel maxLen w).1, c.length ≤ maxLen) ∧
      (wordChunks fuel maxLen w).2.length ≤ maxLen := by
  intro fuel
  induction fuel with
  | zero =>
    intro w hw
    refine ⟨?_, by simpa [wordChunks] using hw⟩
    intro c hc
    simp [wordChunks] at hc
  | succ fuel ih =>
    intro w hw
    simp only [wordChunks]
    split
    · rename_i hgt
      have hr := ih (w.drop maxLen) (by rw [List.length_drop]; omega)
      constructor
      · intro c hc
        rcases List.mem_cons.mp hc with rfl | hc
        · rw [List.length_take]; omega
        · exact hr.1 c hc
      · exact hr.2
    · rename_i hle
      refine ⟨?_, by simpa using Nat.not_lt.mp hle⟩
      intro c hc
      simp at hc

/-- One word-loop iteration preserves the bound on the accumulated tweets
and the current tweet. -/
theorem splitStep_preserves (maxLen : Nat) (hm : 1 ≤ maxLen)
    (st : List (List Char) × List Char) (word : List Char)
    (h1 : ∀ t ∈ st.1, t.length ≤ maxLen) (h2 : st.2.length ≤ maxLen) :
    (∀ t ∈ (splitStep maxLen st word).1, t.length ≤ maxLen) ∧
    (splitStep maxLen st word).2.length ≤ maxLen := by
  by_cases hemp : st.2.isEmpty = true
  · simp only [splitStep, hemp, ite_true]
    split
    · rename_i hfits
      exact ⟨h1, hfits⟩
    · split
      · rename_i hover hlong
        have hc := wordChunks_spec maxLen hm word.length word (by omega)
        refine ⟨?_, hc.2⟩
        intro t ht
        rcases List.mem_append.mp ht with ht | ht
        · exact h1 t ht
        · exact hc.1 t ht
      · rename_i hover hshort
        refine ⟨h1, ?_⟩
        show word.length ≤ maxLen
        omega
  · have hemp' : st.2.isEmpty = false := by
      cases h : st.2.isEmpty
      · rfl
      · exact absurd h hemp
    simp only [splitStep, hemp', Bool.false_eq_true, if_false]
    have h1' : ∀ t ∈ st.1 ++ [st.2], t.length ≤ maxLen := by
      intro t ht
      rcases List.mem_append.mp ht with ht | ht
      · exact h1 t ht
      · rw [List.mem_singleton] at ht
        subst ht
        exact h2
    split
    · rename_i hfits
      exact ⟨h1, hfits⟩
    · split
      · rename_i hover hlong
        have hc := wordChunks_spec maxLen hm word.length word (by omega)
        refine ⟨?_, hc.2⟩
        intro t ht
        rcases List.mem_append.mp ht with ht | ht
        · exact h1' t ht
        · exact hc.1 t ht
      · rename_i hover hshort
        refine ⟨h1', ?_⟩
        show word.length ≤ maxLen
        omega

/-- The word fold preserves the bound. -/
theorem splitFold_preserves (maxLen : Nat) (hm : 1 ≤ maxLen) :
    ∀ (words : List (List Char)) (st : List (List Char) × List Char),
      (∀ t ∈ st.1, t.length ≤ maxLen) → st.2.length ≤ maxLen →
      (∀ t ∈ (words.foldl (splitStep maxLen) st).1, t.length ≤ maxLen) ∧
      (words.foldl (splitStep maxLen) st).2.length ≤ maxLen := by
  intro words
  induction words with
  | nil => intro st h1 h2; exact ⟨h1, h2⟩
  | cons w ws ih =>
    intro st h1 h2
    rw [List.foldl_cons]
    have hp := splitStep_preserves maxLen hm st w h1 h2
    exact ih _ hp.1 hp.2

/-- Claim C10: for every input and every `max_length >= 1`, every piece
returned by `split_long_content` has length at most `max_length`, and an
input already within the limit comes back as the one-element list holding
the input unchanged. -/
theorem splitLongContent_bounds :
    ∀ (content : String) (maxLen : Nat), 1 ≤ maxLen →
      (∀ piece ∈ splitLongContent content maxLen, piece.length ≤ maxLen) ∧
      (content.length ≤ maxLen → splitLongContent content maxLen = [content]) := by
  intro content maxLen hm
  constructor
  · intro piece hp
    rw [splitLongContent] at hp
    obtain ⟨l, hl, rfl⟩ := List.mem_map.mp hp
    rw [show (List.asString l).length = l.length from rfl]
    revert hl
    simp only [splitLongContentL]
    split
    · rename_i hle
      intro hl
      rw [List.mem_singleton] at hl
      subst hl
      exact hle
    · intro hl
      have hinv := splitFold_preserves maxLen hm (pySplitWs content.toList [])
        ([], []) (by intro t ht; cases ht) (by simp)
      split at hl
      · exact hinv.1 l hl
      · rcases List.mem_append.mp hl with hl | hl
        · exact hinv.1 l hl
        · rw [List.mem_singleton] at hl
          subst hl
          exact hinv.2
  · intro hle
    rw [splitLongContent, splitLongContentL,
      if_pos (show content.toList.length ≤ maxLen from hle)]
    rfl

/-- Witness for `splitLongContent_bounds` at concrete inputs. -/
theorem splitLongContent_bounds_witness :
    1 ≤ 5 ∧
    (∀ piece ∈ splitLongContent "hello world" 5, piece.length ≤ 5) ∧
    splitLongContent "hi" 5 = ["hi"] :=
  ⟨by decide,
   (splitLongContent_bounds "hello world" 5 (by decide)).1,
   (splitLongContent_bounds "hi" 5 (by decide)).2 (by decide)⟩

/-! ## Lemmas about brace depth and the serializer -/

/-- `deltaL` of a cons. -/
theorem deltaL_cons (c : Char) (l : List Char) :
    deltaL (c :: l) = braceDelta c + deltaL l := by
  simp [deltaL]

/-- `deltaL` of an append. -/
theorem deltaL_append (a b : List Char) :
    deltaL (a ++ b) = deltaL a + deltaL b := by
  simp [deltaL]

/-- `deltaL` of a prefix of an append. -/
theorem deltaL_take_append (a b : List Char) (k : Nat) :
    deltaL ((a ++ b).take k) = deltaL (a.take k) + deltaL (b.take (k - a.length)) := by
  rw [List.take_append_eq_append_take, deltaL_append]

/-- Neutral segments are closed under append. -/
theorem NeutralSeg.append {a b : List Char}
    (ha : NeutralSeg a) (hb : NeutralSeg b) : NeutralSeg (a ++ b) := by
  constructor
  · rw [deltaL_append, ha.1, hb.1]
    omega
  · intro k
    rw [deltaL_take_append]
    have h1 := ha.2 k
    have h2 := hb.2 (k - a.length)
    omega

/-- A non-brace character contributes no depth. -/
theorem braceDelta_of_noBrace {c : Char} (h : noBraceChar c = true) :
    braceDelta c = 0 := by
  rw [braceDelta]
  by_cases h1 : c = lbrace
  · rw [noBraceChar, h1] at h
    simp at h
  · by_cases h2 : c = rbrace
    · rw [noBraceChar, h2] at h
      simp at h
    · rw [if_neg h1, if_neg h2]

/-- A list of non-brace characters is a neutral segment. -/
theorem neutral_of_noBrace {l : List Char}
    (h : ∀ c ∈ l, noBraceChar c = true) : NeutralSeg l := by
  have hall : ∀ k, deltaL (l.take k) = 0 := by
    intro k
    rw [deltaL]
    apply List.sum_eq_zero
    intro x hx
    obtain ⟨c, hc, rfl⟩ := List.mem_map.mp hx
    exact braceDelta_of_noBrace (h c (List.mem_of_mem_take hc))
  refine ⟨?_, fun k => by rw [hall k]⟩
  have := hall l.length
  rwa [List.take_length] at this

/-- A decimal digit character is not a brace. -/
theorem digitChar_noBrace {m : Nat} (hm : m < 10) :
    noBraceChar (Char.ofNat (48 + m)) = true := by
  interval_cases m <;> decide

/-- A hex digit character is not a brace. -/
theorem hexDigit_noBrace {m : Nat} (hm : m < 16) :
    noBraceChar (hexDigit m) = true := by
  interval_cases m <;> decide

/-- `\uXXXX` escapes contain no braces. -/
theorem uEscape_noBrace (n : Nat) : ∀ c ∈ uEscape n, noBraceChar c = true := by
  intro c hc
  rw [uEscape] at hc
  simp only [List.mem_cons, List.not_mem_nil, or_false] at hc
  rcases hc with rfl | rfl | rfl | rfl | rfl | rfl
  · decide
  · decide
  · exact hexDigit_noBrace (Nat.mod_lt _ (by decide))
  · exact hexDigit_noBrace (Nat.mod_lt _ (by decide))
  · exact hexDigit_noBrace (Nat.mod_lt _ (by decide))
  · exact hexDigit_noBrace (Nat.mod_lt _ (by decide))

/-- Escaping a non-brace character yields only non-brace characters. -/
theorem escChar_noBrace {c : Char} (h : noBraceChar c = true) :
    ∀ x ∈ escChar c, noBraceChar x = true := by
  intro x hx
  rw [escChar] at hx
  split_ifs at hx with h1 h2 h3 h4 h5 h6 h7 h8
  · simp only [List.mem_cons, List.not_mem_nil, or_false] at hx
    rcases hx with rfl | rfl <;> decide
  · simp only [List.mem_cons, List.not_mem_nil, or_false] at hx
    rcases hx with rfl | rfl <;> decide
  · simp only [List.mem_cons, List.not_mem_nil, or_false] at hx
    rcases hx with rfl | rfl <;> decide
  · simp only [List.mem_cons, List.not_mem_nil, or_false] at hx
    rcases hx with rfl | rfl <;> decide
  · simp only [List.mem_cons, List.not_mem_nil, or_false] at hx
    rcases hx with rfl | rfl <;> decide
  · simp only [List.mem_cons, List.not_mem_nil, or_false] at hx
    rcases hx with rfl | rfl <;> decide
  · simp only [List.mem_cons, List.not_mem_nil, or_false] at hx
    rcases hx with rfl | rfl <;> decide
  · exact uEscape_noBrace _ x hx
  · simp only [List.mem_cons, List.not_mem_nil, or_false] at hx
    subst hx
    exact h

/-- A serialized string literal with brace-free content is brace-free. -/
theorem jstr_noBrace {s : String} (h : strNoBrace s = true) :
    ∀ c ∈ jstr s, noBraceChar c = true := by
  intro c hc
  rw [jstr] at hc
  rcases List.mem_cons.mp hc with rfl | hc
  · decide
  rcases List.mem_append.mp hc with hc | hc
  · obtain ⟨l, hl, hcl⟩ := List.mem_flatten.mp hc
    obtain ⟨c0, hc0, rfl⟩ := List.mem_map.mp hl
    have hnb : noBraceChar c0 = true := by
      rw [strNoBrace, List.all_eq_true] at h
      exact h c0 hc0
    exact escChar_noBrace hnb c hcl
  · simp only [List.mem_cons, List.not_mem_nil, or_false] at hc
    subst hc
    decide

/-- Decimal digit runs are brace-free. -/
theorem natDigits_noBrace : ∀ (fuel n : Nat), ∀ c ∈ natDigits fuel n, noBraceChar c = true := by
  intro fuel
  induction fuel with
  | zero =>
    intro n c hc
    simp [natDigits] at hc
  | succ fuel ih =>
    intro n c hc
    rw [natDigits] at hc
    split_ifs at hc with h10
    · simp only [List.mem_cons, List.not_mem_nil, or_false] at hc
      subst hc
      exact digitChar_noBrace h10
    · rcases List.mem_append.mp hc with hc | hc
      · exact ih _ c hc
      · simp only [List.mem_cons, List.not_mem_nil, or_false] at hc
        subst hc
        exact digitChar_noBrace (Nat.mod_lt _ (by decide))

/-- Integer numerals are brace-free. -/
theorem intToChars_noBrace (n : Int) : ∀ c ∈ intToChars n, noBraceChar c = true := by
  intro c hc
  rw [intToChars] at hc
  split_ifs at hc
  · rcases List.mem_cons.mp hc with rfl | hc
    · decide
    · exact natDigits_noBrace _ _ c hc
  · exact natDigits_noBrace _ _ c hc

/-- Wrapping a neutral body in braces is again neutral. -/
theorem objWrap_neutral {body : List Char} (hb : NeutralSeg body) :
    NeutralSeg (lbrace :: body ++ [rbrace]) := by
  constructor
  · rw [show (lbrace :: body ++ [rbrace] : List Char) =
      lbrace :: (body ++ [rbrace]) from rfl, deltaL_cons, deltaL_append, hb.1]
    decide
  · intro k
    cases k with
    | zero => simp [deltaL]
    | succ k =>
      rw [show (lbrace :: body ++ [rbrace] : List Char) =
        lbrace :: (body ++ [rbrace]) from rfl,
        List.take_succ_cons, deltaL_cons, deltaL_take_append]
      have h1 : braceDelta lbrace = 1 := by decide
      have h2 := hb.2 k
      have h3 : -1 ≤ deltaL ([rbrace].take (k - body.length)) := by
        rcases hk : k - body.length with _ | m
        · simp [deltaL]
        · rw [show ([rbrace] : List Char).take (m + 1) = [rbrace] from
            by rw [List.take_succ_cons, List.take_nil]]
          decide
      omega

/-- `", "` is neutral. -/
theorem neutral_comma_space : NeutralSeg ([',', ' '] : List Char) :=
  neutral_of_noBrace (by decide)

/-- `": "` is neutral. -/
theorem neutral_colon_space : NeutralSeg ([':', ' '] : List Char) :=
  neutral_of_noBrace (by decide)

mutual

/-- The serialization of a brace-free JSON value is a neutral segment. -/
theorem serialize_neutral : (j : Json) → Json.noBraces j = true → NeutralSeg (serialize j)
  | .null, _ => neutral_of_noBrace (by decide)
  | .bool true, _ => neutral_of_noBrace (by decide)
  | .bool false, _ => neutral_of_noBrace (by decide)
  | .num n, _ => neutral_of_noBrace (intToChars_noBrace n)
  | .str s, h => by
      rw [serialize]
      refine neutral_of_noBrace (jstr_noBrace ?_)
      rw [Json.noBraces] at h
      exact h
  | .arr items, h => by
      rw [serialize]
      have hi := serializeItems_neutral items (by rw [Json.noBraces] at h; exact h)
      rw [show ('[' :: serializeItems items ++ [']'] : List Char) =
        ['['] ++ (serializeItems items ++ [']']) from rfl]
      exact (neutral_of_noBrace (by decide)).append
        (hi.append (neutral_of_noBrace (by decide)))
  | .obj fields, h => by
      rw [serialize]
      exact objWrap_neutral
        (serializeFields_neutral fields (by rw [Json.noBraces] at h; exact h))

/-- The serialization of brace-free array elements is a neutral segment. -/
theorem serializeItems_neutral :
    (xs : List Json) → Json.noBracesItems xs = true → NeutralSeg (serializeItems xs)
  | [], _ => by
      rw [serializeItems]
      exact neutral_of_noBrace (by intro c hc; cases hc)
  | [x], h => by
      rw [serializeItems]
      refine serialize_neutral x ?_
      rw [Json.noBracesItems] at h
      exact (by simpa using h : x.noBraces = true ∧ Json.noBracesItems [] = true).1
  | x :: y :: xs, h => by
      simp only [serializeItems]
      have hx : Json.noBraces x = true ∧ Json.noBracesItems (y :: xs) = true := by
        rw [Json.noBracesItems] at h
        simpa using h
      have h1 := serialize_neutral x hx.1
      have h2 := serializeItems_neutral (y :: xs) hx.2
      rw [show (',' :: ' ' :: serializeItems (y :: xs) : List Char) =
        [',', ' '] ++ serializeItems (y :: xs) from rfl]
      exact h1.append (neutral_comma_space.append h2)

/-- The serialization of brace-free object members is a neutral segment. -/
theorem serializeFields_neutral :
    (fs : List (String × Json)) → Json.noBracesFields fs = true →
      NeutralSeg (serializeFields fs)
  | [], _ => by
      rw [serializeFields]
      exact neutral_of_noBrace (by intro c hc; cases hc)
  | [(k, v)], h => by
      rw [serializeFields]
      have hk : strNoBrace k = true ∧ Json.noBraces v = true := by
        rw [Json.noBracesFields] at h
        exact (by simpa using h :
          (strNoBrace k = true ∧ v.noBraces = true) ∧
            Json.noBracesFields [] = true).1
      rw [show (jstr k ++ ':' :: ' ' :: serialize v : List Char) =
        jstr k ++ ([':', ' '] ++ serialize v) from rfl]
      exact (neutral_of_noBrace (jstr_noBrace hk.1)).append
        (neutral_colon_space.append (serialize_neutral v hk.2))
  | (k, v) :: f :: fs, h => by
      simp only [serializeFields]
      have hk : strNoBrace k = true ∧ Json.noBraces v = true ∧
          Json.noBracesFields (f :: fs) = true := by
        rw [Json.noBracesFields] at h
        simp only [Bool.and_eq_true] at h
        exact ⟨h.1.1, h.1.2, h.2⟩
      have h2 := serializeFields_neutral (f :: fs) hk.2.2
      rw [show (jstr k ++ ':' :: ' ' :: serialize v ++ ',' :: ' ' ::
          serializeFields (f :: fs) : List Char) =
        jstr k ++ ([':', ' '] ++ (serialize v ++ ([',', ' '] ++
          serializeFields (f :: fs)))) from by simp]
      exact (neutral_of_noBrace (jstr_noBrace hk.1)).append
        (neutral_colon_space.append ((serialize_neutral v hk.2.1).append
          (neutral_comma_space.append h2)))

end

/-- The scan passes through a segment whose running depth never returns to
zero, consuming it entirely and shifting the returned index. -/
theorem braceScan_through (body : List Char) :
    ∀ (d : Int) (rest : List Char),
      (∀ k : Nat, 1 ≤ d + deltaL (body.take k)) →
      braceScan (body ++ rest) d =
        (braceScan rest (d + deltaL body)).map (· + body.length) := by
  induction body with
  | nil =>
    intro d rest h
    rw [List.nil_append, show deltaL [] = 0 from rfl,
      show d + 0 = d from by omega]
    cases braceScan rest d <;> simp
  | cons c body ih =>
    intro d rest h
    have h1' : 1 ≤ d + braceDelta c := by
      have h1 := h 1
      rw [List.take_succ_cons, List.take_zero, deltaL_cons,
        show deltaL [] = 0 from rfl] at h1
      omega
    rw [List.cons_append]
    simp only [braceScan]
    have hd'eq : (if c = lbrace then d + 1 else if c = rbrace then d - 1 else d) =
        d + braceDelta c := by
      rw [braceDelta]
      split_ifs <;> omega
    rw [hd'eq]
    rw [if_neg (by rintro ⟨rfl, habs⟩; omega)]
    rw [ih (d + braceDelta c) rest (fun k => by
      have hk := h (k + 1)
      rw [List.take_succ_cons, deltaL_cons] at hk
      omega)]
    rw [show d + braceDelta c + deltaL body = d + deltaL (c :: body) from by
      rw [deltaL_cons]; omega]
    cases braceScan rest (d + deltaL (c :: body)) <;> simp
    omega

/-- On a braced neutral body the scan finds its match exactly at the final
closing brace. -/
theorem braceScan_obj {body : List Char} (hb : NeutralSeg body) :
    braceScan (lbrace :: body ++ [rbrace]) 0 = some (body.length + 2) := by
  rw [show (lbrace :: body ++ [rbrace] : List Char) =
    lbrace :: (body ++ [rbrace]) from rfl]
  simp only [braceScan]
  rw [if_neg (by rintro ⟨habs, -⟩; exact absurd habs (by decide))]
  rw [if_pos trivial, show (0 : Int) + 1 = 1 from by norm_num]
  rw [braceScan_through body 1 [rbrace] (fun k => by
    have := hb.2 k
    omega)]
  rw [hb.1, show braceScan [rbrace] (1 + 0) = some 1 from by decide]
  simp only [Option.map]
  rw [Option.some.injEq]
  omega

/-- `strip()` leaves a brace-delimited string unchanged. -/
theorem pyStripL_obj (body : List Char) :
    pyStripL (lbrace :: body ++ [rbrace]) = lbrace :: body ++ [rbrace] := by
  rw [pyStripL]
  rw [show (lbrace :: body ++ [rbrace] : List Char) =
    lbrace :: (body ++ [rbrace]) from rfl]
  rw [List.dropWhile_cons_of_neg (by decide)]
  rw [show (lbrace :: (body ++ [rbrace]) : List Char).reverse =
    rbrace :: (lbrace :: body).reverse from by simp]
  rw [List.dropWhile_cons_of_neg (by decide)]
  simp

/-- On the exact serialization of a braced neutral body, the extraction
returns the whole input string: the fence stripping does not fire, the
first `\x7b` is at index 0, and the scan's match is the final character. -/
theorem extractJson_obj_shape {body : List Char} (hb : NeutralSeg body) :
    extractJson ((lbrace :: body ++ [rbrace]).asString) =
      some ((lbrace :: body ++ [rbrace]).asString) := by
  have hts : ((lbrace :: body ++ [rbrace]).asString).toList =
      lbrace :: body ++ [rbrace] := rfl
  have hpre1 : ("```json".toList).isPrefixOf (lbrace :: body ++ [rbrace]) = false := by
    rw [show ("```json".toList : List Char) = '`' :: "``json".toList from rfl]
    rw [show (lbrace :: body ++ [rbrace] : List Char) =
      lbrace :: (body ++ [rbrace]) from rfl]
    simp [List.isPrefixOf, show ('`' == lbrace) = false from by decide]
  have hpre2 : ("```".toList).isPrefixOf (lbrace :: body ++ [rbrace]) = false := by
    rw [show ("```".toList : List Char) = '`' :: "``".toList from rfl]
    rw [show (lbrace :: body ++ [rbrace] : List Char) =
      lbrace :: (body ++ [rbrace]) from rfl]
    simp [List.isPrefixOf, show ('`' == lbrace) = false from by decide]
  have hsuf : ("```".toList).isSuffixOf (lbrace :: body ++ [rbrace]) = false := by
    rw [List.isSuffixOf]
    rw [show (lbrace :: body ++ [rbrace] : List Char).reverse =
      rbrace :: (lbrace :: body).reverse from by simp]
    rw [show ("```".toList : List Char).reverse = '`' :: "``".toList from rfl]
    simp [List.isPrefixOf, show ('`' == rbrace) = false from by decide]
  have hfind : (lbrace :: body ++ [rbrace]).findIdx? (· = lbrace) = some 0 := by
    simp [List.findIdx?]
  have hlen : (lbrace :: body ++ [rbrace]).length = body.length + 2 := by
    simp
  have htake : (lbrace :: body ++ [rbrace]).take (body.length + 2) =
      lbrace :: body ++ [rbrace] := by
    rw [← hlen, List.take_length]
  simp only [extractJson, hts, pyStripL_obj, hpre1, hpre2, hsuf,
    Bool.false_eq_true, if_false, hfind, List.drop_zero, braceScan_obj hb, htake]

/-! ## Claim C3 -/

/-- Claim C3 counterexample.  `jC3` serializes to the well-formed JSON
object text `\x7b"a": "\x7d"\x7d`, but the brace-depth scan counts the
closing brace inside the string literal, so the extraction stops early
and hands `json.loads` the eight-character truncated substring
`\x7b"a": "\x7d` — not the input.  That substring is not valid JSON, so the
code's parse step fails and the empty default is returned instead of the
original object: extraction is not idempotent on this serialized
object. -/
theorem extractJson_truncates_brace_string :
    (serialize jC3).asString = "\x7b\"a\": \"\x7d\"\x7d" ∧
    extractJson "\x7b\"a\": \"\x7d\"\x7d" = some "\x7b\"a\": \"\x7d" ∧
    "\x7b\"a\": \"\x7d" ≠ "\x7b\"a\": \"\x7d\"\x7d" :=
  ⟨rfl, rfl, by decide⟩

/-- Claim C3 (amended): on a string that is exactly a serialized JSON
object *none of whose string literals contains a brace character*, the
extraction returns the entire input unchanged — the fence stripping does
not fire and the depth scan's match is the final character — so parsing
the extracted substring returns exactly the original object. -/
theorem extractJson_identity_of_noBraces :
    ∀ fields : List (String × Json), Json.noBracesFields fields = true →
      extractJson ((serialize (Json.obj fields)).asString) =
        some ((serialize (Json.obj fields)).asString) := by
  intro fields h
  rw [show serialize (Json.obj fields) =
    lbrace :: serializeFields fields ++ [rbrace] from by rw [serialize]]
  exact extractJson_obj_shape (serializeFields_neutral fields h)

/-- Witness for `extractJson_identity_of_noBraces` at a concrete object. -/
theorem extractJson_identity_of_noBraces_witness :
    Json.noBracesFields [("a", Json.str "x")] = true ∧
    extractJson ((serialize (Json.obj [("a", Json.str "x")])).asString) =
      some ((serialize (Json.obj [("a", Json.str "x")])).asString) :=
  ⟨by decide, extractJson_identity_of_noBraces [("a", Json.str "x")] (by decide)⟩
